import Mathlib

/-!
Verification of the DexScreener boost scanner/bot.

Shallow embedding, in Lean 4, of the core of the `dexscreener-boost-scrapper`
repository (files `scanner.py`, `formatter.py`, `bot.py`, `config.py`), together
with proofs settling the behavioural claims about it.

Modelling conventions:
* Python dictionaries coming from JSON are embedded as structures whose fields
  are `Option`-valued; `d.get(k, default)` becomes `field.getD default`.
* Python `str` is `String`, `int` is `Nat` (all amounts in this program are
  non-negative), and JSON / Python numbers that the code passes through
  `float(...)` are embedded as exact rationals `ℚ`.  A JSON value on which
  Python's `float(...)` would raise is the constructor `JNum.bad`.
* HTTP interactions are embedded by passing the response as an explicit input:
  `none` models a transport-level exception, `some r` a received response with
  a status code and a body that either parsed (`Except.ok`) or made
  `response.json()` raise (`Except.error ()`).
* Fallible code returns `Except Unit _` / `Option _`; a Python `try/except`
  returning a default becomes a `match` on that value.
* The mutable `seen_boost_ids` set is embedded as a duplicate-free `List String`
  threaded in state-passing style; insertion order of the list plays the role
  of the (implementation-defined) iteration order of the Python set.
-/

/-! ## Python-style helpers: decimal rendering, `rstrip`, fixed-point formats -/

/-- Little-endian base-10 digits, by structural recursion on a fuel argument
(so that the kernel can evaluate it); `decDigits` below instantiates the fuel.
Agrees with Mathlib's `Nat.digits 10` (see `decDigits_eq_digits`). -/
def decDigitsAux : Nat → Nat → List Nat
  | 0, _ => []
  | _ + 1, 0 => []
  | fuel + 1, n + 1 => ((n + 1) % 10) :: decDigitsAux fuel ((n + 1) / 10)

/-- Little-endian base-10 digits of `n`. -/
def decDigits (n : Nat) : List Nat := decDigitsAux n n

/-- Decimal representation of a natural number, as produced by Python's
`str(n)` / f-string interpolation of an `int`. -/
def decRepr (n : Nat) : String :=
  if n = 0 then "0" else String.mk (((decDigits n).map Nat.digitChar).reverse)

/-- Python's `s.lower()` (ASCII case folding, which is all this program's
inputs use). -/
def pyLower (s : String) : String := String.mk (s.data.map Char.toLower)

/-- Python's `s.capitalize()`: first character upper-cased, the rest
lower-cased. -/
def pyCapitalize (s : String) : String :=
  match s.data with
  | [] => ""
  | c :: cs => String.mk (c.toUpper :: cs.map Char.toLower)

/-- `s.rstrip(c)` of Python for a single-character strip set: remove every
trailing occurrence of `c`. -/
def pyRstrip (s : String) (c : Char) : String :=
  String.mk ((s.data.reverse.dropWhile (· == c)).reverse)

/-- Round a rational to the nearest integer, ties to even — the rounding used
by Python's fixed-point (`%.kf`) float formatting. -/
def roundHalfEven (q : ℚ) : ℤ :=
  let f := ⌊q⌋
  let r := q - (f : ℚ)
  if r < 1/2 then f
  else if 1/2 < r then f + 1
  else if f % 2 = 0 then f else f + 1

/-- Left-pad a string with `'0'` up to length `k`. -/
def padZeros (k : Nat) (s : String) : String :=
  String.mk (List.replicate (k - s.data.length) '0') ++ s

/-- Python's `f"{q:.kf}"`: fixed-point rendering with exactly `k` decimals of
the (here: exact rational) value, rounded half-to-even. -/
def fmtFixed (q : ℚ) (k : Nat) : String :=
  let n : ℤ := roundHalfEven (q * (10 : ℚ) ^ k)
  let sign := if n < 0 then "-" else ""
  let m := n.natAbs
  if k = 0 then sign ++ decRepr m
  else sign ++ decRepr (m / 10 ^ k) ++ "." ++ padZeros k (decRepr (m % 10 ^ k))

/-- Insert a `','` after every third character of a reversed digit list
(helper for thousands grouping). -/
def commaRevAux : List Char → Nat → List Char
  | [], _ => []
  | c :: cs, i =>
    if 0 < i ∧ i % 3 = 0 then ',' :: c :: commaRevAux cs (i + 1)
    else c :: commaRevAux cs (i + 1)

/-- Python's `f"{q:,.0f}"`: round to an integer and group the digits in
threes with commas. -/
def fmtCommas0 (q : ℚ) : String :=
  let n := roundHalfEven q
  let sign := if n < 0 then "-" else ""
  let ds := (decRepr n.natAbs).data
  sign ++ String.mk ((commaRevAux ds.reverse 0).reverse)

/-- Python's substring test `needle in hay`. -/
def strContains (hay needle : String) : Bool :=
  decide (needle.data <:+: hay.data)

/-! ## Configuration (`config.py`) -/

/-- `TARGET_CHAIN = "solana"` -/
def TARGET_CHAIN : String := "solana"

/-- `BOOST_AMOUNTS = [500, 100]` -/
def BOOST_AMOUNTS : List Nat := [500, 100]

/-- `MAX_CACHED_BOOSTS = 500` -/
def MAX_CACHED_BOOSTS : Nat := 500

/-! ## Data model: raw boost records (upstream feed schema) -/

/-- A raw boost record from the upstream feed.  Each field is optional, as in
the JSON dictionary; accessors below apply the `.get(..., default)` defaults
used by the source. -/
structure RawBoost where
  chainId : Option String
  tokenAddress : Option String
  amount : Option Nat
  totalAmount : Option Nat
deriving DecidableEq, Repr

namespace RawBoost

/-- `boost.get('chainId', '')` -/
def getChainId (b : RawBoost) : String := b.chainId.getD ""

/-- `boost.get('tokenAddress', '')` (the scanner's default) -/
def getTokenAddress (b : RawBoost) : String := b.tokenAddress.getD ""

/-- `boost.get('amount', 0)` -/
def getAmount (b : RawBoost) : Nat := b.amount.getD 0

/-- `boost.get('totalAmount', 0)` (the scanner's default) -/
def getTotalAmount (b : RawBoost) : Nat := b.totalAmount.getD 0

end RawBoost

/-- The chain filter of `get_boosted_tokens`:
`boost.get('chainId','').lower() == TARGET_CHAIN`. -/
def chainOkB (b : RawBoost) : Bool :=
  pyLower b.getChainId == TARGET_CHAIN

/-- `boost_id = f"{token_address}_{amount}_{total_amount}"` — the composite
dedup key built in `get_boosted_tokens`. -/
def boostId (b : RawBoost) : String :=
  b.getTokenAddress ++ "_" ++ decRepr b.getAmount ++ "_" ++ decRepr b.getTotalAmount

/-- The (tokenAddress, amount, totalAmount) triple — the intended dedup
identity of a boost record (with the source's `.get` defaults applied). -/
def tripleOf (b : RawBoost) : String × Nat × Nat :=
  (b.getTokenAddress, b.getAmount, b.getTotalAmount)

/-! ## Scanner (`scanner.py`) -/

/-- Shape of the parsed boosts-endpoint body: a bare JSON list, an object with
a `boosts` field, or anything else (logged and treated as empty). -/
inductive BoostsPayload where
  | jlist (bs : List RawBoost)
  | jobjBoosts (bs : List RawBoost)
  | other
deriving DecidableEq, Repr

/-- An HTTP response: status code plus a body that either parsed to `β` or
makes `.json()` raise (`Except.error ()`). -/
structure HttpResponse (β : Type) where
  status : Nat
  body : Except Unit β
deriving Repr

/-- `requests.Response.raise_for_status()` raises exactly for 4xx/5xx. -/
def raiseForStatus (st : Nat) : Bool :=
  decide (400 ≤ st ∧ st < 600)

/-- The filtering/dedup loop of `get_boosted_tokens`: walk the raw records in
order; keep a record only if it is on the target chain and its `boostId` is
not yet in the seen-cache, adding the id to the cache when kept.  Returns the
kept records (in upstream order) and the grown cache. -/
def processBoosts : List RawBoost → List String → List RawBoost × List String
  | [], seen => ([], seen)
  | b :: bs, seen =>
    if chainOkB b then
      if seen.contains (boostId b) then processBoosts bs seen
      else
        let rest := processBoosts bs (seen ++ [boostId b])
        (b :: rest.1, rest.2)
    else processBoosts bs seen

/-- `DexScreenerScanner.get_boosted_tokens`, with the HTTP response passed
explicitly (`none` = transport exception) and the `seen_boost_ids` cache
threaded through.  All exceptions degrade to `([], cache unchanged)`. -/
def get_boosted_tokens (resp : Option (HttpResponse BoostsPayload))
    (seen : List String) : List RawBoost × List String :=
  match resp with
  | none => ([], seen)
  | some r =>
    if raiseForStatus r.status then ([], seen)
    else
      match r.body with
      | .error _ => ([], seen)
      | .ok payload =>
        match payload with
        | .jlist bs => processBoosts bs seen
        | .jobjBoosts bs => processBoosts bs seen
        | .other => ([], seen)

/-- Python's `lst[-n:]` for a non-negative `n`: the last `n` elements — except
that `n = 0` yields the whole list (`-0 == 0`, so the slice is `lst[0:]`). -/
def pySliceLast (l : List String) (n : Nat) : List String :=
  if n = 0 then l else l.drop (l.length - n)

/-- `DexScreenerScanner.cleanup_cache`: if the cache exceeds `max_size`,
replace it by `list(cache)[-max_size:]`; otherwise leave it unchanged. -/
def cleanup_cache (cache : List String) (max_size : Nat) : List String :=
  if max_size < cache.length then pySliceLast cache max_size else cache

/-! ## Scanner: token details (`get_token_details`) -/

/-- A JSON number-ish value as consumed by Python's `float(...)`: either a
value `float` accepts (embedded by its exact rational) or one on which
`float(...)` raises. -/
inductive JNum where
  | num (q : ℚ)
  | bad
deriving DecidableEq, Repr

/-- `float(v)` on an embedded JSON value. -/
def pyFloat : JNum → Except Unit ℚ
  | .num q => .ok q
  | .bad => .error ()

/-- `baseToken` subobject of a pair. -/
structure BaseToken where
  name : Option String
  symbol : Option String
deriving DecidableEq, Repr

/-- `liquidity` subobject of a pair. -/
structure Liquidity where
  usd : Option JNum
deriving DecidableEq, Repr

/-- One side of the `txns` counters. -/
structure TxnPair where
  buys : Option Nat
  sells : Option Nat
deriving DecidableEq, Repr

/-- `txns` subobject of a pair. -/
structure Txns where
  m5 : Option TxnPair
  h24 : Option TxnPair
deriving DecidableEq, Repr

/-- A DexScreener pair record, with the fields the source reads. -/
structure Pair where
  chainId : Option String
  baseToken : Option BaseToken
  priceUsd : Option JNum
  marketCap : Option JNum
  liquidity : Option Liquidity
  txns : Option Txns
  pairCreatedAt : Option Int
  dexId : Option String
deriving DecidableEq, Repr

/-- The chain filter applied to pairs:
`pair.get('chainId','').lower() == TARGET_CHAIN`. -/
def pChainOk (p : Pair) : Bool :=
  pyLower (p.chainId.getD "") == TARGET_CHAIN

/-- The sort key `float(x.get('liquidity', {}).get('usd', 0))` (may raise). -/
def liqKey (p : Pair) : Except Unit ℚ :=
  pyFloat ((p.liquidity.getD ⟨none⟩).usd.getD (.num 0))

/-- Parsed body of the search / token endpoints: an object that may carry a
`pairs` list. -/
structure PairsPayload where
  pairs : Option (List Pair)
deriving DecidableEq, Repr

/-- Evaluate the sort key (`float(...)` of the USD liquidity) for every pair,
as Python's `list.sort` does before comparing; the first failing conversion
raises. -/
def evalKeys : List Pair → Except Unit (List (Pair × ℚ))
  | [] => .ok []
  | p :: ps =>
    match liqKey p with
    | .error e => .error e
    | .ok v =>
      match evalKeys ps with
      | .error e => .error e
      | .ok rest => .ok ((p, v) :: rest)

/-- The selection step shared by both endpoints of `get_token_details`: if the
body has a non-empty `pairs` list, filter to the target chain and — when any
remain — sort descending by USD liquidity and take the first.  Python's
`list.sort(key=..., reverse=True)` is a stable descending sort, which is
exactly `List.insertionSort` under the relation "left key at least right
key". -/
def selectFrom (pl : PairsPayload) : Except Unit (Option Pair) :=
  match pl.pairs with
  | none => .ok none
  | some ps =>
    if ps.length > 0 then
      let sp := ps.filter pChainOk
      if sp.isEmpty then .ok none
      else
        match evalKeys sp with
        | .error e => .error e
        | .ok keyed =>
          .ok (((keyed.insertionSort (fun a b => b.2 ≤ a.2)).head?).map (·.1))
    else .ok none

/-- The token-specific fallback block of `get_token_details`: consult the
second endpoint, apply the same filtering and max-liquidity selection, and
degrade every failure (transport, non-200, parse, key evaluation) to `none`
via the function's outer `except`. -/
def tokenFallback (tokenResp : Option (HttpResponse PairsPayload)) : Option Pair :=
  match tokenResp with
  | none => none
  | some r2 =>
    if r2.status = 200 then
      match r2.body with
      | .error _ => none
      | .ok pl =>
        match selectFrom pl with
        | .error _ => none
        | .ok res => res
    else none

/-- `DexScreenerScanner.get_token_details`, with both HTTP responses passed
explicitly (`searchResp` for the search endpoint, `tokenResp` for the
token-specific fallback; `none` = transport exception).  Mirrors the source's
control flow: a transport or parse exception anywhere aborts to `none` via the
outer `except`; a non-200 search status or an empty selection falls through to
the fallback endpoint. -/
def get_token_details (searchResp tokenResp : Option (HttpResponse PairsPayload)) :
    Option Pair :=
  match searchResp with
  | none => none
  | some r1 =>
    let step1 : Except Unit (Option Pair) :=
      if r1.status = 200 then
        match r1.body with
        | .error _ => .error ()
        | .ok pl => selectFrom pl
      else .ok none
    match step1 with
    | .error _ => none
    | .ok (some p) => some p
    | .ok none => tokenFallback tokenResp

/-! ## Formatter (`formatter.py`) -/

/-- Python's `str(i)` for an `int` that may be negative. -/
def intRepr (i : Int) : String :=
  if i < 0 then "-" ++ decRepr i.natAbs else decRepr i.natAbs

/-- `MessageFormatter.format_price`: tiered precision.  The "subscript zeros"
refinement attempted below the `1e-6` threshold is dead code in the source:
the computed exponent is `exp = -int(str(p).split("e-")[-1])` (or `0` when
the repr has no `"e-"`), which is never positive, so the guard `exp > 6`
never holds and the plain trimmed 8-decimal string is returned. -/
def format_price (price_usd : ℚ) : String :=
  if price_usd = 0 then "$0.00"
  else if price_usd < 1/1000 then
    pyRstrip (pyRstrip ("$" ++ fmtFixed price_usd 8) '0') '.'
  else if price_usd < 1 then
    pyRstrip (pyRstrip ("$" ++ fmtFixed price_usd 6) '0') '.'
  else
    pyRstrip (pyRstrip ("$" ++ fmtFixed price_usd 4) '0') '.'

/-- `MessageFormatter.format_age`, with `datetime.now()` passed explicitly as
`nowMs` (milliseconds).  A missing or zero (falsy) timestamp yields `"N/A"`;
otherwise the elapsed time is decomposed as Python's `timedelta` does
(floor-division days, then hours/minutes from the non-negative remainder). -/
def format_age (nowMs : Int) (pair_created_at : Option Int) : String :=
  match pair_created_at with
  | none => "N/A"
  | some t =>
    if t = 0 then "N/A"
    else
      let totalMs := nowMs - t
      let days := totalMs.fdiv 86400000
      let rem := totalMs.fmod 86400000
      let hours := rem.fdiv 3600000
      let minutes := (rem.fmod 3600000).fdiv 60000
      if 0 < days then intRepr days ++ "d " ++ intRepr hours ++ "h"
      else if 0 < hours then intRepr hours ++ "h " ++ intRepr minutes ++ "m"
      else if 0 < minutes then intRepr minutes ++ "m"
      else "<1m"

/-- The extraction step of `format_boost_message`: the default placeholder
values, overridden from `token_data` when it is present.  The three
`float(...)` conversions are the fallible steps; a failure of any of them is
the exception that reaches the function's `except` clause. -/
def fmtVals (nowMs : Int) (token_data : Option Pair) :
    Except Unit (String × String × ℚ × ℚ × ℚ × Nat × Nat × Nat × Nat × String) :=
  match token_data with
  | none => .ok ("N/A", "N/A", 0, 0, 0, 0, 0, 0, 0, "N/A")
  | some td =>
    let base_token := td.baseToken.getD ⟨none, none⟩
    let token_name := base_token.name.getD "N/A"
    let token_symbol := base_token.symbol.getD "N/A"
    match pyFloat (td.priceUsd.getD (.num 0)) with
    | .error e => .error e
    | .ok price_usd =>
      match pyFloat (td.marketCap.getD (.num 0)) with
      | .error e => .error e
      | .ok market_cap =>
        match pyFloat ((td.liquidity.getD ⟨none⟩).usd.getD (.num 0)) with
        | .error e => .error e
        | .ok liquidity_usd =>
          let txns := td.txns.getD ⟨none, none⟩
          let m5 := txns.m5.getD ⟨none, none⟩
          let h24 := txns.h24.getD ⟨none, none⟩
          let age := format_age nowMs td.pairCreatedAt
          .ok (token_name, token_symbol, price_usd, market_cap, liquidity_usd,
            m5.buys.getD 0, m5.sells.getD 0, h24.buys.getD 0, h24.sells.getD 0, age)

/-- The `try`-block body of `MessageFormatter.format_boost_message`.  An
`Except.error` models an exception reaching the function's `except` clause. -/
def fmtBody (nowMs : Int) (boost_data : RawBoost) (token_data : Option Pair) :
    Except Unit String :=
  let token_address := boost_data.tokenAddress.getD "Unknown"
  let amount := boost_data.amount.getD 0
  let total_amount := boost_data.totalAmount.getD amount
  match fmtVals nowMs token_data with
  | .error e => .error e
  | .ok (token_name, token_symbol, price_usd, market_cap, liquidity_usd,
      buys_5m, sells_5m, buys_24h, sells_24h, age) =>
  let price_str := format_price price_usd
  let liquidity_percentage : ℚ :=
    if 0 < market_cap ∧ 0 < liquidity_usd then liquidity_usd / market_cap * 100 else 0
  let platform :=
    match token_data with
    | some td =>
      let dex_id := pyLower (td.dexId.getD "")
      if strContains dex_id "pump" then "Pump.fun 🔗 SOL"
      else if strContains dex_id "raydium" then "Raydium 🔗 SOL"
      else pyCapitalize dex_id
    | none => "Pump.fun 🔗 SOL"
  let dexscreener_url := "https://dexscreener.com/" ++ TARGET_CHAIN ++ "/" ++ token_address
  let boost_display :=
    if amount < total_amount then
      decRepr amount ++ "⚡ (Total: " ++ decRepr total_amount ++ "⚡)"
    else decRepr amount ++ "⚡"
  .ok ("\n🚨 **DETECTED Boost " ++ boost_display ++ "**\n\n**Token:** "
    ++ token_name ++ " ($" ++ token_symbol ++ ")\n**CA:** `" ++ token_address
    ++ "`\n**Platform:** " ++ platform
    ++ "\n\n📊 **Market Data**\n• **Age:** " ++ age
    ++ "\n• **Market Cap:** $" ++ fmtCommas0 market_cap
    ++ "\n• **Price:** " ++ price_str
    ++ "\n• **Liquidity:** $" ++ fmtCommas0 liquidity_usd
    ++ " (" ++ fmtFixed liquidity_percentage 1 ++ "%)"
    ++ "\n\n📈 **Transactions**\n• **5m:** " ++ decRepr buys_5m ++ " buys | "
    ++ decRepr sells_5m ++ " sells\n• **24h:** " ++ decRepr buys_24h ++ " buys | "
    ++ decRepr sells_24h ++ " sells"
    ++ "\n\n🔗 [DexScreener](" ++ dexscreener_url ++ ")\n")

/-- `MessageFormatter.format_boost_message`: the body above with its
`except` clause — any internal exception degrades to `none`. -/
def format_boost_message (nowMs : Int) (boost_data : RawBoost)
    (token_data : Option Pair) : Option String :=
  (fmtBody nowMs boost_data token_data).toOption

/-! ## Orchestrator (`bot.py`) -/

/-- `DexBoostBot.check_boost_criteria`: the boost amount is one of the
configured target amounts. -/
def check_boost_criteria (boost_data : RawBoost) : Bool :=
  BOOST_AMOUNTS.contains (boost_data.amount.getD 0)

/-- `boost_stats`: an association list from target amount to count, standing
for the Python dict (unique keys, fixed at initialisation). -/
abbrev Stats := List (Nat × Nat)

/-- `self.boost_stats = {amount: 0 for amount in BOOST_AMOUNTS}` -/
def initStats : Stats := BOOST_AMOUNTS.map (fun a => (a, 0))

/-- Dict read `stats[a]` (`none` = key absent). -/
def lookupStats : Stats → Nat → Option Nat
  | [], _ => none
  | (k, v) :: rest, a => if k = a then some v else lookupStats rest a

/-- Dict update `stats[a] += 1`; `none` models the `KeyError` raised when `a`
is not a key. -/
def incrStats : Stats → Nat → Option Stats
  | [], _ => none
  | (k, v) :: rest, a =>
    if k = a then some ((k, v + 1) :: rest)
    else (incrStats rest a).map (fun r => (k, v) :: r)

/-- Observable per-boost actions of the orchestrator, recorded as a trace:
the token-details lookup, the formatting attempt, the alert send (with its
outcome), and a `KeyError` escaping from the stats increment. -/
inductive Event where
  | lookup (b : RawBoost)
  | fmtAttempt (b : RawBoost)
  | send (b : RawBoost) (success : Bool)
  | keyError (b : RawBoost)
deriving DecidableEq, Repr

/-- The boost a trace event belongs to. -/
def Event.boostOf : Event → RawBoost
  | .lookup b => b
  | .fmtAttempt b => b
  | .send b _ => b
  | .keyError b => b

/-- Whether an event is a successful send. -/
def Event.isSendSuccess : Event → Bool
  | .send _ ok => ok
  | _ => false

/-- Whether an event is an escaped `KeyError`. -/
def Event.isKeyError : Event → Bool
  | .keyError _ => true
  | _ => false

/-- The bot's external collaborators, as oracles: `get_token_details` for a
given token address (already settled per address for the cycle under
analysis) and the Telegram `send_alert` outcome per message text. -/
structure Oracles where
  details : Option String → Option Pair
  sendOk : String → Bool

/-- `DexBoostBot.process_boost`: look up token details, format, send, and on a
confirmed successful send increment `boost_stats[amount]`.  The surrounding
`try/except` catches a `KeyError` from the increment (returning `False` with
the stats unchanged).  Returns (alert sent?, new stats, trace). -/
def process_boost (o : Oracles) (nowMs : Int) (stats : Stats) (boost : RawBoost) :
    Bool × Stats × List Event :=
  let amount := boost.amount.getD 0
  let token_data := o.details boost.tokenAddress
  let message := format_boost_message nowMs boost token_data
  let evs := [Event.lookup boost, Event.fmtAttempt boost]
  if message.getD "" = "" then (false, stats, evs)
  else
    let success := o.sendOk (message.getD "")
    let evs := evs ++ [Event.send boost success]
    if success then
      match incrStats stats amount with
      | some stats' => (true, stats', evs)
      | none => (false, stats, evs ++ [Event.keyError boost])
    else (false, stats, evs)

/-- The sequential per-boost loop of `scan_and_process`, counting successful
alerts. -/
def processLoop (o : Oracles) (nowMs : Int) :
    Stats → List RawBoost → Nat × Stats × List Event
  | stats, [] => (0, stats, [])
  | stats, b :: bs =>
    let r := process_boost o nowMs stats b
    let rest := processLoop o nowMs r.2.1 bs
    ((if r.1 then 1 else 0) + rest.1, rest.2.1, r.2.2 ++ rest.2.2)

/-- `DexBoostBot.scan_and_process`: one scan cycle — fetch new boosts, filter
by the target amounts, process each survivor sequentially.  Returns (number
of alerts successfully sent, new seen-cache, new stats, trace). -/
def scan_and_process (o : Oracles) (nowMs : Int)
    (resp : Option (HttpResponse BoostsPayload)) (seen : List String)
    (stats : Stats) : Nat × List String × Stats × List Event :=
  let fetched := get_boosted_tokens resp seen
  if fetched.1.isEmpty then (0, fetched.2, stats, [])
  else
    let target_boosts := fetched.1.filter check_boost_criteria
    if target_boosts.isEmpty then (0, fetched.2, stats, [])
    else
      let r := processLoop o nowMs stats target_boosts
      (r.1, fetched.2, r.2.1, r.2.2)

/-! ## Derived notions used by the claim statements -/

/-- The boost list a response yields in `get_boosted_tokens` when nothing
fails: `none` when the transport failed, the status raised, the body did not
parse, or the shape was unexpected. -/
def respBoosts (resp : Option (HttpResponse BoostsPayload)) : Option (List RawBoost) :=
  match resp with
  | none => none
  | some r =>
    if raiseForStatus r.status then none
    else
      match r.body with
      | .error _ => none
      | .ok (.jlist bs) => some bs
      | .ok (.jobjBoosts bs) => some bs
      | .ok .other => none

/-- `resp` is a parsed 200 response carrying payload `pl`. -/
def okPairsResp (resp : Option (HttpResponse PairsPayload)) (pl : PairsPayload) : Prop :=
  ∃ r, resp = some r ∧ r.status = 200 ∧ r.body = .ok pl

/-- A failing token-endpoint interaction: transport failure, non-200 status,
or unparseable body. -/
def badPairsResp (resp : Option (HttpResponse PairsPayload)) : Prop :=
  resp = none ∨ ∃ r, resp = some r ∧ (r.status ≠ 200 ∨ r.body = .error ())

/-- `p` is a target-chain pair of payload `pl` whose USD liquidity is maximal
among `pl`'s target-chain pairs (all of whose sort keys evaluate). -/
def isBestOf (pl : PairsPayload) (p : Pair) : Prop :=
  ∃ ps, pl.pairs = some ps ∧ p ∈ ps ∧ pChainOk p = true ∧
    ∃ pv, liqKey p = .ok pv ∧
      ∀ q ∈ ps, pChainOk q = true → ∃ qv, liqKey q = .ok qv ∧ qv ≤ pv

/-- `resp` successfully yields a pair `p`: a parsed 200 response whose
selection step returns `p`. -/
def yieldsPair (resp : Option (HttpResponse PairsPayload)) (p : Pair) : Prop :=
  ∃ r pl, resp = some r ∧ r.status = 200 ∧ r.body = .ok pl ∧
    selectFrom pl = .ok (some p)

/-- The key set of a stats dict. -/
def statsKeys (s : Stats) : List Nat := s.map (fun kv => kv.1)

/-! ## Lemmas about decimal rendering -/

theorem decDigitsAux_eq_digits (fuel n : Nat) (h : n ≤ fuel) :
    decDigitsAux fuel n = Nat.digits 10 n := by
  induction fuel generalizing n with
  | zero =>
    have : n = 0 := Nat.le_zero.mp h
    subst this
    simp [decDigitsAux]
  | succ fuel ih =>
    cases n with
    | zero => simp [decDigitsAux]
    | succ m =>
      rw [decDigitsAux, Nat.digits_def' (by norm_num : (1:Nat) < 10) (Nat.succ_pos m)]
      congr 1
      have hlt : (m + 1) / 10 < m + 1 := Nat.div_lt_self (Nat.succ_pos m) (by norm_num)
      exact ih _ (by omega)

theorem decDigits_eq_digits (n : Nat) : decDigits n = Nat.digits 10 n :=
  decDigitsAux_eq_digits n n le_rfl

theorem decDigits_lt_base {n d : Nat} (hd : d ∈ decDigits n) : d < 10 := by
  rw [decDigits_eq_digits] at hd
  exact Nat.digits_lt_base (by norm_num) hd

theorem digitChar_inj_lt : ∀ d₁ < 10, ∀ d₂ < 10,
    Nat.digitChar d₁ = Nat.digitChar d₂ → d₁ = d₂ := by decide

theorem digitChar_ne_underscore : ∀ d < 10, Nat.digitChar d ≠ '_' := by decide

theorem map_digitChar_inj : ∀ (l₁ l₂ : List Nat), (∀ d ∈ l₁, d < 10) → (∀ d ∈ l₂, d < 10) →
    l₁.map Nat.digitChar = l₂.map Nat.digitChar → l₁ = l₂ := by
  intro l₁
  induction l₁ with
  | nil =>
    intro l₂ _ _ h
    cases l₂ with
    | nil => rfl
    | cons d ds => simp at h
  | cons d ds ih =>
    intro l₂ h₁ h₂ h
    cases l₂ with
    | nil => simp at h
    | cons e es =>
      simp only [List.map_cons, List.cons.injEq] at h
      have hd : d = e :=
        digitChar_inj_lt d (h₁ d (by simp)) e (h₂ e (by simp)) h.1
      have hds : ds = es :=
        ih es (fun x hx => h₁ x (by simp [hx])) (fun x hx => h₂ x (by simp [hx])) h.2
      rw [hd, hds]

theorem decRepr_injective : Function.Injective decRepr := by
  intro m n h
  unfold decRepr at h
  by_cases hm : m = 0 <;> by_cases hn : n = 0
  · rw [hm, hn]
  · exfalso
    rw [if_pos hm, if_neg hn] at h
    have hdata : ['0'] = ((decDigits n).map Nat.digitChar).reverse :=
      congrArg String.data h
    have : (decDigits n).map Nat.digitChar = ['0'] := by
      rw [← List.reverse_reverse ((decDigits n).map Nat.digitChar), ← hdata]
      rfl
    obtain ⟨d, hd, hmap⟩ : ∃ d, decDigits n = [d] ∧ Nat.digitChar d = '0' := by
      cases hds : decDigits n with
      | nil => rw [hds] at this; simp at this
      | cons a as =>
        rw [hds] at this
        cases as with
        | nil => simp at this; exact ⟨a, rfl, this⟩
        | cons b bs => simp at this
    have hd0 : d = 0 := by
      have : d < 10 := decDigits_lt_base (by rw [hd]; simp)
      exact digitChar_inj_lt d this 0 (by norm_num) (by simpa using hmap)
    have : n = 0 := by
      have := Nat.ofDigits_digits 10 n
      rw [← decDigits_eq_digits, hd, hd0] at this
      simpa [Nat.ofDigits] using this.symm
    exact hn this
  · exfalso
    rw [if_neg hm, if_pos hn] at h
    have hdata : ((decDigits m).map Nat.digitChar).reverse = ['0'] :=
      congrArg String.data h
    have : (decDigits m).map Nat.digitChar = ['0'] := by
      rw [← List.reverse_reverse ((decDigits m).map Nat.digitChar), hdata]
      rfl
    obtain ⟨d, hd, hmap⟩ : ∃ d, decDigits m = [d] ∧ Nat.digitChar d = '0' := by
      cases hds : decDigits m with
      | nil => rw [hds] at this; simp at this
      | cons a as =>
        rw [hds] at this
        cases as with
        | nil => simp at this; exact ⟨a, rfl, this⟩
        | cons b bs => simp at this
    have hd0 : d = 0 := by
      have : d < 10 := decDigits_lt_base (by rw [hd]; simp)
      exact digitChar_inj_lt d this 0 (by norm_num) (by simpa using hmap)
    have : m = 0 := by
      have := Nat.ofDigits_digits 10 m
      rw [← decDigits_eq_digits, hd, hd0] at this
      simpa [Nat.ofDigits] using this.symm
    exact hm this
  · rw [if_neg hm, if_neg hn] at h
    have hdata := congrArg String.data h
    have hrev : ((decDigits m).map Nat.digitChar).reverse
        = ((decDigits n).map Nat.digitChar).reverse := hdata
    have hmap : (decDigits m).map Nat.digitChar = (decDigits n).map Nat.digitChar :=
      List.reverse_injective hrev
    have hdig : decDigits m = decDigits n :=
      map_digitChar_inj _ _ (fun d hd => decDigits_lt_base hd)
        (fun d hd => decDigits_lt_base hd) hmap
    have := Nat.ofDigits_digits 10 m
    rw [← decDigits_eq_digits, hdig, decDigits_eq_digits, Nat.ofDigits_digits] at this
    exact this.symm

theorem decRepr_no_underscore (n : Nat) : '_' ∉ (decRepr n).data := by
  unfold decRepr
  by_cases hn : n = 0
  · rw [if_pos hn]
    decide
  · rw [if_neg hn]
    intro hmem
    have : '_' ∈ (decDigits n).map Nat.digitChar := by
      simpa using hmem
    obtain ⟨d, hd, hchar⟩ := List.mem_map.mp this
    exact digitChar_ne_underscore d (decDigits_lt_base hd) hchar

/-! ## The dedup key is injective in the triple (claim C2) -/

theorem append_underscore_inj : ∀ (x₁ x₂ r₁ r₂ : List Char), '_' ∉ x₁ → '_' ∉ x₂ →
    x₁ ++ '_' :: r₁ = x₂ ++ '_' :: r₂ → x₁ = x₂ ∧ r₁ = r₂ := by
  intro x₁
  induction x₁ with
  | nil =>
    intro x₂ r₁ r₂ _ h₂ h
    cases x₂ with
    | nil => simpa using h
    | cons c cs =>
      exfalso
      simp only [List.nil_append, List.cons_append, List.cons.injEq] at h
      exact h₂ (h.1 ▸ List.mem_cons_self c cs)
  | cons c cs ih =>
    intro x₂ r₁ r₂ h₁ h₂ h
    cases x₂ with
    | nil =>
      exfalso
      simp only [List.cons_append, List.nil_append, List.cons.injEq] at h
      exact h₁ (h.1 ▸ List.mem_cons_self c cs)
    | cons d ds =>
      simp only [List.cons_append, List.cons.injEq] at h
      obtain ⟨hcd, htail⟩ := h
      obtain ⟨hx, hr⟩ := ih ds r₁ r₂
        (fun hx => h₁ (List.mem_cons_of_mem _ hx))
        (fun hx => h₂ (List.mem_cons_of_mem _ hx)) htail
      exact ⟨by rw [hcd, hx], hr⟩

theorem key_decomp_inj (A₁ A₂ X₁ X₂ Y₁ Y₂ : List Char)
    (hX₁ : '_' ∉ X₁) (hX₂ : '_' ∉ X₂) (hY₁ : '_' ∉ Y₁) (hY₂ : '_' ∉ Y₂)
    (h : A₁ ++ '_' :: (X₁ ++ '_' :: Y₁) = A₂ ++ '_' :: (X₂ ++ '_' :: Y₂)) :
    A₁ = A₂ ∧ X₁ = X₂ ∧ Y₁ = Y₂ := by
  have e : ∀ (A X Y : List Char),
      (A ++ '_' :: (X ++ '_' :: Y)).reverse
        = Y.reverse ++ '_' :: (X.reverse ++ '_' :: A.reverse) := by
    intro A X Y
    simp [List.reverse_cons, List.reverse_append]
  have hrev := congrArg List.reverse h
  rw [e, e] at hrev
  obtain ⟨hY, hrest⟩ := append_underscore_inj _ _ _ _
    (fun hx => hY₁ (List.mem_reverse.mp hx)) (fun hx => hY₂ (List.mem_reverse.mp hx)) hrev
  obtain ⟨hX, hA⟩ := append_underscore_inj _ _ _ _
    (fun hx => hX₁ (List.mem_reverse.mp hx)) (fun hx => hX₂ (List.mem_reverse.mp hx)) hrest
  exact ⟨List.reverse_injective hA, List.reverse_injective hX, List.reverse_injective hY⟩

theorem boostId_data (b : RawBoost) :
    (boostId b).data = b.getTokenAddress.data ++ '_' ::
      ((decRepr b.getAmount).data ++ '_' :: (decRepr b.getTotalAmount).data) := by
  simp [boostId, String.data_append]

theorem boostId_eq_iff (b₁ b₂ : RawBoost) :
    boostId b₁ = boostId b₂ ↔ tripleOf b₁ = tripleOf b₂ := by
  constructor
  · intro h
    have hd := congrArg String.data h
    rw [boostId_data, boostId_data] at hd
    obtain ⟨hA, hX, hY⟩ := key_decomp_inj _ _ _ _ _ _
      (decRepr_no_underscore _) (decRepr_no_underscore _)
      (decRepr_no_underscore _) (decRepr_no_underscore _) hd
    have haddr : b₁.getTokenAddress = b₂.getTokenAddress := String.ext hA
    have ham : b₁.getAmount = b₂.getAmount := decRepr_injective (String.ext hX)
    have htot : b₁.getTotalAmount = b₂.getTotalAmount := decRepr_injective (String.ext hY)
    simp [tripleOf, haddr, ham, htot]
  · intro h
    simp only [tripleOf, Prod.mk.injEq] at h
    simp [boostId, h.1, h.2.1, h.2.2]

/-- C2.  Deduplication identity is exactly the triple: two records get the
same `boost_id` key iff their `(tokenAddress, amount, totalAmount)` triples
agree, and — the cache holding exactly the keys of the previously seen
records — the membership test that drops a record as a duplicate succeeds iff
some previously seen record had the same triple. -/
theorem C2_dedup_identity_is_triple :
    (∀ b₁ b₂ : RawBoost, boostId b₁ = boostId b₂ ↔ tripleOf b₁ = tripleOf b₂) ∧
    ∀ (b : RawBoost) (seenRecords : List RawBoost),
      (boostId b ∈ seenRecords.map boostId ↔
        ∃ b' ∈ seenRecords, tripleOf b' = tripleOf b) := by
  constructor
  · exact boostId_eq_iff
  · intro b seen
    rw [List.mem_map]
    constructor
    · rintro ⟨b', hb', heq⟩
      exact ⟨b', hb', (boostId_eq_iff b' b).mp heq⟩
    · rintro ⟨b', hb', heq⟩
      exact ⟨b', hb', (boostId_eq_iff b' b).mpr heq⟩

/-! ## Lemmas about the dedup loop of `get_boosted_tokens` -/

theorem processBoosts_fst_sublist (bs : List RawBoost) :
    ∀ seen, (processBoosts bs seen).1.Sublist bs := by
  induction bs with
  | nil => intro seen; simp [processBoosts]
  | cons b bs ih =>
    intro seen
    by_cases hc : chainOkB b
    · by_cases hs : seen.contains (boostId b)
      · simp only [processBoosts, if_pos hc, if_pos hs]
        exact (ih seen).cons b
      · simp only [processBoosts, if_pos hc, if_neg hs]
        exact (ih (seen ++ [boostId b])).cons₂ b
    · simp only [processBoosts, if_neg hc]
      exact (ih seen).cons b

theorem processBoosts_fst_chainOk (bs : List RawBoost) :
    ∀ seen, ∀ b ∈ (processBoosts bs seen).1, chainOkB b = true := by
  induction bs with
  | nil => intro seen b hb; simp [processBoosts] at hb
  | cons a bs ih =>
    intro seen b hb
    by_cases hc : chainOkB a
    · by_cases hs : seen.contains (boostId a)
      · simp only [processBoosts, if_pos hc, if_pos hs] at hb
        exact ih seen b hb
      · simp only [processBoosts, if_pos hc, if_neg hs] at hb
        rcases List.mem_cons.mp hb with rfl | hb'
        · exact hc
        · exact ih _ b hb'
    · simp only [processBoosts, if_neg hc] at hb
      exact ih seen b hb

theorem processBoosts_snd (bs : List RawBoost) :
    ∀ seen, (processBoosts bs seen).2 = seen ++ ((processBoosts bs seen).1).map boostId := by
  induction bs with
  | nil => intro seen; simp [processBoosts]
  | cons b bs ih =>
    intro seen
    by_cases hc : chainOkB b
    · by_cases hs : seen.contains (boostId b)
      · simp only [processBoosts, if_pos hc, if_pos hs]
        exact ih seen
      · simp only [processBoosts, if_pos hc, if_neg hs]
        show (processBoosts bs (seen ++ [boostId b])).2
          = seen ++ (boostId b :: ((processBoosts bs (seen ++ [boostId b])).1).map boostId)
        rw [ih (seen ++ [boostId b])]
        simp
    · simp only [processBoosts, if_neg hc]
      exact ih seen

theorem processBoosts_all_dup (bs : List RawBoost) :
    ∀ seen, (∀ b ∈ bs, chainOkB b = true → boostId b ∈ seen) →
      processBoosts bs seen = ([], seen) := by
  induction bs with
  | nil => intro seen _; rfl
  | cons b bs ih =>
    intro seen h
    by_cases hc : chainOkB b
    · have hmem : boostId b ∈ seen := h b (List.mem_cons_self b bs) hc
      have hs : seen.contains (boostId b) = true := by
        simpa using hmem
      simp only [processBoosts, if_pos hc, if_pos hs]
      exact ih seen (fun b' hb' hc' => h b' (List.mem_cons_of_mem _ hb') hc')
    · simp only [processBoosts, if_neg hc]
      exact ih seen (fun b' hb' hc' => h b' (List.mem_cons_of_mem _ hb') hc')

theorem processBoosts_fresh (bs : List RawBoost) :
    ∀ seen, (∀ b ∈ bs, chainOkB b = true → boostId b ∉ seen) →
      ((bs.filter chainOkB).map boostId).Nodup →
      processBoosts bs seen
        = (bs.filter chainOkB, seen ++ (bs.filter chainOkB).map boostId) := by
  induction bs with
  | nil => intro seen _ _; simp [processBoosts]
  | cons b bs ih =>
    intro seen hfresh hnd
    by_cases hc : chainOkB b
    · have hs : ¬ seen.contains (boostId b) = true := by
        intro hcontra
        exact hfresh b (List.mem_cons_self b bs) hc (by simpa using hcontra)
      have hfilter : (b :: bs).filter chainOkB = b :: bs.filter chainOkB := by
        simp [List.filter_cons, hc]
      rw [hfilter] at hnd
      simp only [List.map_cons, List.nodup_cons] at hnd
      have hfresh' : ∀ b' ∈ bs, chainOkB b' = true → boostId b' ∉ seen ++ [boostId b] := by
        intro b' hb' hc' hmem
        rcases List.mem_append.mp hmem with hmem | hmem
        · exact hfresh b' (List.mem_cons_of_mem _ hb') hc' hmem
        · have : boostId b' = boostId b := by simpa using hmem
          exact hnd.1 (this ▸ List.mem_map_of_mem boostId
            (List.mem_filter.mpr ⟨hb', hc'⟩))
      simp only [processBoosts, if_pos hc, if_neg hs]
      rw [ih (seen ++ [boostId b]) hfresh' hnd.2]
      simp [hfilter]
    · have hfilter : (b :: bs).filter chainOkB = bs.filter chainOkB := by
        simp [List.filter_cons, hc]
      simp only [processBoosts, if_neg hc]
      rw [ih seen (fun b' hb' hc' => hfresh b' (List.mem_cons_of_mem _ hb') hc')
        (by rw [hfilter] at hnd; exact hnd)]
      rw [hfilter]

theorem gbt_respBoosts (resp : Option (HttpResponse BoostsPayload)) (seen : List String) :
    get_boosted_tokens resp seen =
      match respBoosts resp with
      | some bs => processBoosts bs seen
      | none => ([], seen) := by
  cases resp with
  | none => rfl
  | some r =>
    unfold get_boosted_tokens respBoosts
    by_cases hrs : raiseForStatus r.status = true
    · simp [hrs]
    · simp only [Bool.not_eq_true] at hrs
      cases hb : r.body with
      | error e => simp [hrs, hb]
      | ok pl => cases pl <;> simp [hrs, hb]

/-! ## Claim C4: cache eviction -/

/-- C4 counterexample.  With `max_size = 0` and a cache of size `0 + 1`,
`cleanup_cache` keeps the whole cache: Python's `ids_list[-0:]` is the full
list, so the cache does not end up with exactly `maxSize = 0` identities. -/
theorem C4_counterexample :
    cleanup_cache ["a"] 0 = ["a"] ∧ (cleanup_cache ["a"] 0).length ≠ 0 := by
  constructor
  · rfl
  · decide

/-- C4 (amended: for a positive `maxSize`).  For every duplicate-free cache of
size `maxSize + k` with `k > 0` and `maxSize > 0`, after `cleanup_cache` the
cache holds exactly `maxSize` identities, still duplicate-free, and every
identity kept was already in the cache; when the size is at most `maxSize`
the call leaves the cache unchanged. -/
theorem C4_eviction_postcondition (cache : List String) (maxSize : Nat)
    (hnd : cache.Nodup) :
    (∀ k, 0 < k → 0 < maxSize → cache.length = maxSize + k →
      (cleanup_cache cache maxSize).length = maxSize ∧
      (cleanup_cache cache maxSize).Nodup ∧
      ∀ x ∈ cleanup_cache cache maxSize, x ∈ cache) ∧
    (cache.length ≤ maxSize → cleanup_cache cache maxSize = cache) := by
  constructor
  · intro k hk hm hlen
    have hlt : maxSize < cache.length := by omega
    have hdef : cleanup_cache cache maxSize = cache.drop (cache.length - maxSize) := by
      unfold cleanup_cache pySliceLast
      rw [if_pos hlt, if_neg (by omega : ¬ maxSize = 0)]
    refine ⟨?_, ?_, ?_⟩
    · rw [hdef, List.length_drop]
      omega
    · rw [hdef]
      exact hnd.sublist (List.drop_sublist _ _)
    · intro x hx
      rw [hdef] at hx
      exact (List.drop_sublist _ _).subset hx
  · intro hle
    unfold cleanup_cache
    rw [if_neg (by omega)]

/-- Witness for `C4_eviction_postcondition` at a concrete cache (size 3,
`maxSize = 2`, so `k = 1`) and at a concrete no-op call (`maxSize = 3`). -/
theorem C4_eviction_postcondition_witness :
    (cleanup_cache ["a", "b", "c"] 2).length = 2 ∧
    cleanup_cache ["a", "b", "c"] 3 = ["a", "b", "c"] := by
  constructor
  · exact ((C4_eviction_postcondition ["a", "b", "c"] 2 (by decide)).1 1
      (by decide) (by decide) (by decide)).1
  · exact (C4_eviction_postcondition ["a", "b", "c"] 3 (by decide)).2 (by decide)

/-! ## Claim C9: chain filter and order preservation -/

/-- C9.  `get_boosted_tokens` never returns a record whose (case-insensitive)
`chainId` differs from the target chain, and whenever the response yields a
payload list, the returned records are a sublist of it — i.e. they appear in
the upstream order. -/
theorem C9_chain_filter_and_order (resp : Option (HttpResponse BoostsPayload))
    (seen : List String) :
    (∀ b ∈ (get_boosted_tokens resp seen).1, chainOkB b = true) ∧
    ∀ bs, respBoosts resp = some bs → (get_boosted_tokens resp seen).1.Sublist bs := by
  rw [gbt_respBoosts]
  cases h : respBoosts resp with
  | none => simp
  | some bs =>
    constructor
    · exact fun b hb => processBoosts_fst_chainOk bs seen b hb
    · intro bs' hbs'
      have : bs = bs' := Option.some.inj hbs'
      rw [← this]
      exact processBoosts_fst_sublist bs seen

/-- Witness for `C9_chain_filter_and_order` on a concrete payload holding one
Solana and one Ethereum record. -/
theorem C9_chain_filter_and_order_witness :
    (get_boosted_tokens
      (some ⟨200, .ok (.jlist
        [⟨some "solana", some "WitA", some 500, some 500⟩,
         ⟨some "ethereum", some "WitB", some 500, some 500⟩])⟩) []).1.Sublist
      [⟨some "solana", some "WitA", some 500, some 500⟩,
       ⟨some "ethereum", some "WitB", some 500, some 500⟩] :=
  (C9_chain_filter_and_order
    (some ⟨200, .ok (.jlist
      [⟨some "solana", some "WitA", some 500, some 500⟩,
       ⟨some "ethereum", some "WitB", some 500, some 500⟩])⟩) []).2
    [⟨some "solana", some "WitA", some 500, some 500⟩,
     ⟨some "ethereum", some "WitB", some 500, some 500⟩] (by decide)

/-! ## Claim C1: idempotence of deduplication -/

/-- C1 counterexample.  Two distinct target-chain records ("solana" vs
"Solana", same address/amounts) share one identity, so with an empty cache —
in which no identity of the payload occurs — the first call returns only the
first record, not all target-chain records of the payload. -/
theorem C1_counterexample :
    (∀ b ∈ [(⟨some "solana", some "AddrA", some 500, some 500⟩ : RawBoost),
            ⟨some "Solana", some "AddrA", some 500, some 500⟩],
       boostId b ∉ ([] : List String)) ∧
    chainOkB ⟨some "Solana", some "AddrA", some 500, some 500⟩ = true ∧
    (get_boosted_tokens
      (some ⟨200, .ok (.jlist
        [⟨some "solana", some "AddrA", some 500, some 500⟩,
         ⟨some "Solana", some "AddrA", some 500, some 500⟩])⟩) []).1
      = [⟨some "solana", some "AddrA", some 500, some 500⟩] ∧
    (⟨some "Solana", some "AddrA", some 500, some 500⟩ : RawBoost) ∉
      (get_boosted_tokens
        (some ⟨200, .ok (.jlist
          [⟨some "solana", some "AddrA", some 500, some 500⟩,
           ⟨some "Solana", some "AddrA", some 500, some 500⟩])⟩) []).1 := by
  decide

/-- C1 (amended: additionally assuming the target-chain records of the payload
carry pairwise-distinct identities).  Starting from a cache in which no
identity of the payload's records occurs, the first call returns exactly the
target-chain records of the payload (in order) and a second call against the
same payload returns the empty list. -/
theorem C1_dedup_idempotent (resp : Option (HttpResponse BoostsPayload))
    (bs : List RawBoost) (seen : List String)
    (hresp : respBoosts resp = some bs)
    (hfresh : ∀ b ∈ bs, boostId b ∉ seen)
    (hnd : ((bs.filter chainOkB).map boostId).Nodup) :
    (get_boosted_tokens resp seen).1 = bs.filter chainOkB ∧
    (get_boosted_tokens resp (get_boosted_tokens resp seen).2).1 = [] := by
  have h1 : get_boosted_tokens resp seen = processBoosts bs seen := by
    rw [gbt_respBoosts, hresp]
  have hfr := processBoosts_fresh bs seen (fun b hb _ => hfresh b hb) hnd
  constructor
  · rw [h1, hfr]
  · rw [h1, hfr]
    have h2 : get_boosted_tokens resp (seen ++ (bs.filter chainOkB).map boostId)
        = processBoosts bs (seen ++ (bs.filter chainOkB).map boostId) := by
      rw [gbt_respBoosts, hresp]
    rw [h2, processBoosts_all_dup bs _ ?_]
    intro b hb hc
    exact List.mem_append_right _
      (List.mem_map_of_mem _ (List.mem_filter.mpr ⟨hb, hc⟩))

/-- Witness for `C1_dedup_idempotent` on a concrete two-record payload with
distinct identities and an empty initial cache. -/
theorem C1_dedup_idempotent_witness :
    (get_boosted_tokens
      (some ⟨200, .ok (.jlist
        [⟨some "solana", some "IdemA", some 500, some 1000⟩,
         ⟨some "solana", some "IdemB", some 100, some 100⟩])⟩) []).1
      = List.filter chainOkB
          [⟨some "solana", some "IdemA", some 500, some 1000⟩,
           ⟨some "solana", some "IdemB", some 100, some 100⟩] ∧
    (get_boosted_tokens
      (some ⟨200, .ok (.jlist
        [⟨some "solana", some "IdemA", some 500, some 1000⟩,
         ⟨some "solana", some "IdemB", some 100, some 100⟩])⟩)
      (get_boosted_tokens
        (some ⟨200, .ok (.jlist
          [⟨some "solana", some "IdemA", some 500, some 1000⟩,
           ⟨some "solana", some "IdemB", some 100, some 100⟩])⟩) []).2).1 = [] :=
  C1_dedup_idempotent
    (some ⟨200, .ok (.jlist
      [⟨some "solana", some "IdemA", some 500, some 1000⟩,
       ⟨some "solana", some "IdemB", some 100, some 100⟩])⟩)
    [⟨some "solana", some "IdemA", some 500, some 1000⟩,
     ⟨some "solana", some "IdemB", some 100, some 100⟩] []
    (by decide) (by decide) (by decide)

/-! ## Lemmas about the stats dictionary -/

theorem statsKeys_cons (k v : Nat) (rest : Stats) :
    statsKeys ((k, v) :: rest) = k :: statsKeys rest := rfl

theorem lookupStats_isSome_iff (s : Stats) (a : Nat) :
    (lookupStats s a).isSome = true ↔ a ∈ statsKeys s := by
  induction s with
  | nil => simp [lookupStats, statsKeys]
  | cons kv rest ih =>
    obtain ⟨k, v⟩ := kv
    by_cases hk : k = a
    · subst hk
      simp [lookupStats, statsKeys_cons]
    · rw [statsKeys_cons]
      simp only [lookupStats, if_neg hk]
      rw [ih]
      simp [List.mem_cons]
      intro h
      exact absurd h.symm hk

theorem incrStats_isSome_iff (s : Stats) (a : Nat) :
    (incrStats s a).isSome = true ↔ a ∈ statsKeys s := by
  induction s with
  | nil => simp [incrStats, statsKeys]
  | cons kv rest ih =>
    obtain ⟨k, v⟩ := kv
    by_cases hk : k = a
    · subst hk
      simp [incrStats, statsKeys_cons]
    · rw [statsKeys_cons]
      simp only [incrStats, if_neg hk]
      constructor
      · intro h
        cases hrest : incrStats rest a with
        | none => rw [hrest] at h; simp at h
        | some r => exact List.mem_cons_of_mem _ (ih.mp (by rw [hrest]; rfl))
      · intro h
        rcases List.mem_cons.mp h with rfl | h'
        · exact absurd rfl hk
        · have hsome := ih.mpr h'
          cases hrest : incrStats rest a with
          | none => rw [hrest] at hsome; simp at hsome
          | some r => rfl

theorem incrStats_spec (s : Stats) (a : Nat) :
    ∀ s', incrStats s a = some s' →
      statsKeys s' = statsKeys s ∧
      lookupStats s' a = (lookupStats s a).map (fun n => n + 1) ∧
      ∀ a', a' ≠ a → lookupStats s' a' = lookupStats s a' := by
  induction s with
  | nil => intro s' h; simp [incrStats] at h
  | cons kv rest ih =>
    obtain ⟨k, v⟩ := kv
    intro s' h
    by_cases hk : k = a
    · subst hk
      have heq : incrStats ((k, v) :: rest) k = some ((k, v + 1) :: rest) := by
        simp [incrStats]
      rw [heq] at h
      have h' : s' = (k, v + 1) :: rest := (Option.some.inj h).symm
      subst h'
      refine ⟨by simp [statsKeys_cons], ?_, ?_⟩
      · simp [lookupStats]
      · intro a' ha'
        have hne : ¬ k = a' := fun hc => ha' hc.symm
        simp only [lookupStats, if_neg hne]
    · simp only [incrStats, if_neg hk] at h
      cases hrest : incrStats rest a with
      | none => rw [hrest] at h; simp at h
      | some r =>
        rw [hrest] at h
        have h' : (k, v) :: r = s' := Option.some.inj h
        subst h'
        obtain ⟨h1, h2, h3⟩ := ih r hrest
        refine ⟨by simp [statsKeys_cons, h1], ?_, ?_⟩
        · simp only [lookupStats, if_neg hk, h2]
        · intro a' ha'
          by_cases hka' : k = a'
          · subst hka'
            simp [lookupStats]
          · simp only [lookupStats, if_neg hka']
            exact h3 a' ha'

theorem statsKeys_initStats : statsKeys initStats = BOOST_AMOUNTS := rfl

/-! ## Case lemmas for `process_boost` and the per-cycle loop -/

theorem process_boost_msg_falsy (o : Oracles) (now : Int) (stats : Stats) (b : RawBoost)
    (h : (format_boost_message now b (o.details b.tokenAddress)).getD "" = "") :
    process_boost o now stats b = (false, stats, [.lookup b, .fmtAttempt b]) := by
  simp only [process_boost]
  rw [if_pos h]

theorem process_boost_send_fail (o : Oracles) (now : Int) (stats : Stats) (b : RawBoost)
    (h : ¬ (format_boost_message now b (o.details b.tokenAddress)).getD "" = "")
    (hs : o.sendOk ((format_boost_message now b (o.details b.tokenAddress)).getD "") = false) :
    process_boost o now stats b
      = (false, stats, [.lookup b, .fmtAttempt b, .send b false]) := by
  simp only [process_boost]
  rw [if_neg h, hs]
  simp

theorem process_boost_send_ok (o : Oracles) (now : Int) (stats : Stats) (b : RawBoost)
    (h : ¬ (format_boost_message now b (o.details b.tokenAddress)).getD "" = "")
    (hs : o.sendOk ((format_boost_message now b (o.details b.tokenAddress)).getD "") = true) :
    process_boost o now stats b =
      match incrStats stats (b.amount.getD 0) with
      | some stats' => (true, stats', [.lookup b, .fmtAttempt b, .send b true])
      | none => (false, stats, [.lookup b, .fmtAttempt b, .send b true, .keyError b]) := by
  simp only [process_boost]
  rw [if_neg h, hs]
  cases incrStats stats (b.amount.getD 0) <;> simp

theorem process_boost_statsKeys (o : Oracles) (now : Int) (stats : Stats) (b : RawBoost) :
    statsKeys (process_boost o now stats b).2.1 = statsKeys stats := by
  by_cases h : (format_boost_message now b (o.details b.tokenAddress)).getD "" = ""
  · rw [process_boost_msg_falsy o now stats b h]
  · cases hs : o.sendOk ((format_boost_message now b (o.details b.tokenAddress)).getD "")
    · rw [process_boost_send_fail o now stats b h hs]
    · rw [process_boost_send_ok o now stats b h hs]
      cases hi : incrStats stats (b.amount.getD 0) with
      | none => rfl
      | some s' => exact (incrStats_spec stats _ s' hi).1

theorem process_boost_events (o : Oracles) (now : Int) (stats : Stats) (b : RawBoost) :
    ∀ e ∈ (process_boost o now stats b).2.2, e.boostOf = b := by
  intro e he
  by_cases h : (format_boost_message now b (o.details b.tokenAddress)).getD "" = ""
  · rw [process_boost_msg_falsy o now stats b h] at he
    simp at he
    rcases he with rfl | rfl <;> rfl
  · cases hs : o.sendOk ((format_boost_message now b (o.details b.tokenAddress)).getD "")
    · rw [process_boost_send_fail o now stats b h hs] at he
      simp at he
      rcases he with rfl | rfl | rfl <;> rfl
    · rw [process_boost_send_ok o now stats b h hs] at he
      cases hi : incrStats stats (b.amount.getD 0) <;> rw [hi] at he <;> simp at he
      · rcases he with rfl | rfl | rfl | rfl <;> rfl
      · rcases he with rfl | rfl | rfl <;> rfl

theorem process_boost_keyError_free (o : Oracles) (now : Int) (stats : Stats) (b : RawBoost)
    (hkey : b.amount.getD 0 ∈ statsKeys stats) :
    ∀ e ∈ (process_boost o now stats b).2.2, e.isKeyError = false := by
  intro e he
  by_cases h : (format_boost_message now b (o.details b.tokenAddress)).getD "" = ""
  · rw [process_boost_msg_falsy o now stats b h] at he
    simp at he
    rcases he with rfl | rfl <;> rfl
  · cases hs : o.sendOk ((format_boost_message now b (o.details b.tokenAddress)).getD "")
    · rw [process_boost_send_fail o now stats b h hs] at he
      simp at he
      rcases he with rfl | rfl | rfl <;> rfl
    · rw [process_boost_send_ok o now stats b h hs] at he
      cases hi : incrStats stats (b.amount.getD 0) with
      | none =>
        exfalso
        have := (incrStats_isSome_iff stats (b.amount.getD 0)).mpr hkey
        rw [hi] at this
        simp at this
      | some s' =>
        rw [hi] at he
        simp at he
        rcases he with rfl | rfl | rfl <;> rfl

theorem process_boost_sendCount (o : Oracles) (now : Int) (stats : Stats) (b : RawBoost)
    (hkey : b.amount.getD 0 ∈ statsKeys stats) :
    ((process_boost o now stats b).2.2.filter Event.isSendSuccess).length
      = if (process_boost o now stats b).1 = true then 1 else 0 := by
  by_cases h : (format_boost_message now b (o.details b.tokenAddress)).getD "" = ""
  · rw [process_boost_msg_falsy o now stats b h]
    simp [Event.isSendSuccess]
  · cases hs : o.sendOk ((format_boost_message now b (o.details b.tokenAddress)).getD "")
    · rw [process_boost_send_fail o now stats b h hs]
      simp [Event.isSendSuccess]
    · rw [process_boost_send_ok o now stats b h hs]
      cases hi : incrStats stats (b.amount.getD 0) with
      | none =>
        exfalso
        have := (incrStats_isSome_iff stats (b.amount.getD 0)).mpr hkey
        rw [hi] at this
        simp at this
      | some s' => simp [Event.isSendSuccess]

theorem process_boost_not_sent (o : Oracles) (now : Int) (stats : Stats) (b : RawBoost)
    (h : (process_boost o now stats b).1 = false) :
    (process_boost o now stats b).2.1 = stats := by
  by_cases hm : (format_boost_message now b (o.details b.tokenAddress)).getD "" = ""
  · rw [process_boost_msg_falsy o now stats b hm]
  · cases hs : o.sendOk ((format_boost_message now b (o.details b.tokenAddress)).getD "")
    · rw [process_boost_send_fail o now stats b hm hs]
    · rw [process_boost_send_ok o now stats b hm hs] at h ⊢
      cases hi : incrStats stats (b.amount.getD 0) with
      | none => rfl
      | some s' =>
        rw [hi] at h
        simp at h

theorem process_boost_lookup_other (o : Oracles) (now : Int) (stats : Stats) (b : RawBoost)
    (a : Nat) (ha : a ≠ b.amount.getD 0) :
    lookupStats (process_boost o now stats b).2.1 a = lookupStats stats a := by
  by_cases hm : (format_boost_message now b (o.details b.tokenAddress)).getD "" = ""
  · rw [process_boost_msg_falsy o now stats b hm]
  · cases hs : o.sendOk ((format_boost_message now b (o.details b.tokenAddress)).getD "")
    · rw [process_boost_send_fail o now stats b hm hs]
    · rw [process_boost_send_ok o now stats b hm hs]
      cases hi : incrStats stats (b.amount.getD 0) with
      | none => rfl
      | some s' => exact (incrStats_spec stats _ s' hi).2.2 a ha

theorem processLoop_statsKeys (o : Oracles) (now : Int) :
    ∀ (bs : List RawBoost) (stats : Stats),
      statsKeys (processLoop o now stats bs).2.1 = statsKeys stats := by
  intro bs
  induction bs with
  | nil => intro stats; rfl
  | cons b bs ih =>
    intro stats
    show statsKeys (processLoop o now (process_boost o now stats b).2.1 bs).2.1
      = statsKeys stats
    rw [ih, process_boost_statsKeys]

theorem processLoop_events_mem (o : Oracles) (now : Int) :
    ∀ (bs : List RawBoost) (stats : Stats) (e : Event),
      e ∈ (processLoop o now stats bs).2.2 → e.boostOf ∈ bs := by
  intro bs
  induction bs with
  | nil => intro stats e he; simp [processLoop] at he
  | cons b bs ih =>
    intro stats e he
    have he' : e ∈ (process_boost o now stats b).2.2
        ++ (processLoop o now (process_boost o now stats b).2.1 bs).2.2 := he
    rcases List.mem_append.mp he' with h | h
    · rw [process_boost_events o now stats b e h]
      exact List.mem_cons_self _ _
    · exact List.mem_cons_of_mem _ (ih _ e h)

theorem processLoop_keyError_free (o : Oracles) (now : Int) :
    ∀ (bs : List RawBoost) (stats : Stats),
      (∀ b ∈ bs, b.amount.getD 0 ∈ statsKeys stats) →
      ∀ e ∈ (processLoop o now stats bs).2.2, e.isKeyError = false := by
  intro bs
  induction bs with
  | nil => intro stats _ e he; simp [processLoop] at he
  | cons b bs ih =>
    intro stats hkeys e he
    have he' : e ∈ (process_boost o now stats b).2.2
        ++ (processLoop o now (process_boost o now stats b).2.1 bs).2.2 := he
    rcases List.mem_append.mp he' with h | h
    · exact process_boost_keyError_free o now stats b
        (hkeys b (List.mem_cons_self b bs)) e h
    · refine ih _ ?_ e h
      intro b' hb'
      rw [process_boost_statsKeys]
      exact hkeys b' (List.mem_cons_of_mem _ hb')

theorem processLoop_count (o : Oracles) (now : Int) :
    ∀ (bs : List RawBoost) (stats : Stats),
      (∀ b ∈ bs, b.amount.getD 0 ∈ statsKeys stats) →
      (processLoop o now stats bs).1
        = ((processLoop o now stats bs).2.2.filter Event.isSendSuccess).length := by
  intro bs
  induction bs with
  | nil => intro stats _; rfl
  | cons b bs ih =>
    intro stats hkeys
    show (if (process_boost o now stats b).1 = true then 1 else 0)
        + (processLoop o now (process_boost o now stats b).2.1 bs).1
      = (((process_boost o now stats b).2.2
          ++ (processLoop o now (process_boost o now stats b).2.1 bs).2.2).filter
            Event.isSendSuccess).length
    rw [List.filter_append, List.length_append]
    rw [← process_boost_sendCount o now stats b (hkeys b (List.mem_cons_self b bs))]
    congr 1
    refine ih _ ?_
    intro b' hb'
    rw [process_boost_statsKeys]
    exact hkeys b' (List.mem_cons_of_mem _ hb')

theorem processLoop_lookup_other (o : Oracles) (now : Int) :
    ∀ (bs : List RawBoost) (stats : Stats) (a : Nat),
      (∀ b ∈ bs, a ≠ b.amount.getD 0) →
      lookupStats (processLoop o now stats bs).2.1 a = lookupStats stats a := by
  intro bs
  induction bs with
  | nil => intro stats a _; rfl
  | cons b bs ih =>
    intro stats a ha
    show lookupStats (processLoop o now (process_boost o now stats b).2.1 bs).2.1 a
      = lookupStats stats a
    rw [ih _ a (fun b' hb' => ha b' (List.mem_cons_of_mem _ hb')),
      process_boost_lookup_other o now stats b a (ha b (List.mem_cons_self b bs))]

theorem scan_and_process_eq (o : Oracles) (now : Int)
    (resp : Option (HttpResponse BoostsPayload)) (seen : List String) (stats : Stats) :
    scan_and_process o now resp seen stats
      = ((processLoop o now stats
            ((get_boosted_tokens resp seen).1.filter check_boost_criteria)).1,
         (get_boosted_tokens resp seen).2,
         (processLoop o now stats
            ((get_boosted_tokens resp seen).1.filter check_boost_criteria)).2.1,
         (processLoop o now stats
            ((get_boosted_tokens resp seen).1.filter check_boost_criteria)).2.2) := by
  unfold scan_and_process
  by_cases h1 : (get_boosted_tokens resp seen).1.isEmpty = true
  · have he : (get_boosted_tokens resp seen).1 = [] := by
      simpa [List.isEmpty_iff] using h1
    rw [if_pos h1, he]
    rfl
  · rw [if_neg h1]
    by_cases h2 : ((get_boosted_tokens resp seen).1.filter check_boost_criteria).isEmpty = true
    · have he : (get_boosted_tokens resp seen).1.filter check_boost_criteria = [] := by
        simpa [List.isEmpty_iff] using h2
      rw [if_pos h2, he]
      rfl
    · rw [if_neg h2]

/-! ## Claim C8: amount filter -/

/-- C8.  Every trace event of a scan cycle belongs to a boost satisfying the
amount criterion — so a boost whose amount is not a target amount triggers no
lookup, no formatting attempt and no send; the filter step excludes exactly
the non-matching boosts and passes matching ones through unchanged; and the
stats at any non-target amount are untouched by the cycle. -/
theorem C8_amount_filter :
    (∀ (o : Oracles) (now : Int) resp seen stats,
      ∀ e ∈ (scan_and_process o now resp seen stats).2.2.2,
        check_boost_criteria e.boostOf = true) ∧
    (∀ (bs : List RawBoost) (b : RawBoost), b ∈ bs → check_boost_criteria b = false →
      b ∉ bs.filter check_boost_criteria) ∧
    (∀ (bs : List RawBoost) (b : RawBoost), b ∈ bs → check_boost_criteria b = true →
      b ∈ bs.filter check_boost_criteria) ∧
    (∀ (o : Oracles) (now : Int) resp seen stats (a : Nat), a ∉ BOOST_AMOUNTS →
      lookupStats (scan_and_process o now resp seen stats).2.2.1 a
        = lookupStats stats a) := by
  refine ⟨?_, ?_, ?_, ?_⟩
  · intro o now resp seen stats e he
    rw [scan_and_process_eq] at he
    have hmem := processLoop_events_mem o now _ stats e he
    exact (List.mem_filter.mp hmem).2
  · intro bs b _ hc hmem
    have := (List.mem_filter.mp hmem).2
    rw [hc] at this
    exact absurd this (by simp)
  · intro bs b hb hc
    exact List.mem_filter.mpr ⟨hb, hc⟩
  · intro o now resp seen stats a ha
    rw [scan_and_process_eq]
    apply processLoop_lookup_other
    intro b hb heq
    apply ha
    rw [heq]
    have := (List.mem_filter.mp hb).2
    simpa [check_boost_criteria] using this

/-- Witness for `C8_amount_filter`: a concrete amount-42 boost is excluded by
the filter, and a concrete scan cycle leaves the stats at 42 unchanged. -/
theorem C8_amount_filter_witness :
    (⟨some "solana", some "W8", some 42, some 42⟩ : RawBoost) ∉
      List.filter check_boost_criteria
        [⟨some "solana", some "W8", some 42, some 42⟩] ∧
    lookupStats (scan_and_process ⟨fun _ => none, fun _ => true⟩ 0
      (some ⟨200, .ok (.jlist [⟨some "solana", some "W8", some 42, some 42⟩])⟩)
      [] initStats).2.2.1 42 = lookupStats initStats 42 :=
  ⟨C8_amount_filter.2.1 [⟨some "solana", some "W8", some 42, some 42⟩]
      ⟨some "solana", some "W8", some 42, some 42⟩ (by decide) (by decide),
   C8_amount_filter.2.2.2 ⟨fun _ => none, fun _ => true⟩ 0
      (some ⟨200, .ok (.jlist [⟨some "solana", some "W8", some 42, some 42⟩])⟩)
      [] initStats 42 (by decide)⟩

/-! ## Claim C10: the stats increment cannot raise `KeyError` -/

/-- C10.  `boost_stats` is initialised with exactly the configured target
amounts as keys; for any boost that passed `check_boost_criteria` and any
stats whose keys cover the target amounts, the increment succeeds; and a scan
cycle starting from such stats never produces an escaped `KeyError`. -/
theorem C10_stats_increment_safe :
    statsKeys initStats = BOOST_AMOUNTS ∧
    (∀ (b : RawBoost) (stats : Stats), check_boost_criteria b = true →
      (∀ a ∈ BOOST_AMOUNTS, a ∈ statsKeys stats) →
      (incrStats stats (b.amount.getD 0)).isSome = true) ∧
    (∀ (o : Oracles) (now : Int) resp seen stats,
      (∀ a ∈ BOOST_AMOUNTS, a ∈ statsKeys stats) →
      ∀ e ∈ (scan_and_process o now resp seen stats).2.2.2,
        e.isKeyError = false) := by
  refine ⟨rfl, ?_, ?_⟩
  · intro b stats hc hkeys
    apply (incrStats_isSome_iff stats _).mpr
    apply hkeys
    simpa [check_boost_criteria] using hc
  · intro o now resp seen stats hkeys e he
    rw [scan_and_process_eq] at he
    refine processLoop_keyError_free o now _ stats ?_ e he
    intro b hb
    apply hkeys
    have := (List.mem_filter.mp hb).2
    simpa [check_boost_criteria] using this

/-- Witness for `C10_stats_increment_safe` at a concrete boost and at a
concrete scan cycle from the initial stats. -/
theorem C10_stats_increment_safe_witness :
    (incrStats initStats 500).isSome = true ∧
    ∀ e ∈ (scan_and_process ⟨fun _ => none, fun _ => true⟩ 0
      (some ⟨200, .ok (.jlist [⟨some "solana", some "W10", some 500, some 500⟩])⟩)
      [] initStats).2.2.2, e.isKeyError = false :=
  ⟨C10_stats_increment_safe.2.1 ⟨some "solana", some "W10", some 500, some 500⟩
      initStats (by decide) (by decide),
   C10_stats_increment_safe.2.2 ⟨fun _ => none, fun _ => true⟩ 0
      (some ⟨200, .ok (.jlist [⟨some "solana", some "W10", some 500, some 500⟩])⟩)
      [] initStats (by decide)⟩

/-! ## Claim C5: stats mutated only on confirmed delivery -/

/-- C5 counterexample.  When the token-detail lookup yields `nil`, the alert
is still formatted (with placeholders) and sent, and on send success
`boost_stats[amount]` is incremented — contradicting the claim that the stats
are left unchanged when the lookup yields nil. -/
theorem C5_counterexample :
    (Oracles.mk (fun _ => none) (fun _ => true)).details (some "CtrA") = none ∧
    lookupStats initStats 500 = some 0 ∧
    lookupStats (process_boost (Oracles.mk (fun _ => none) (fun _ => true)) 0 initStats
      ⟨some "solana", some "CtrA", some 500, some 500⟩).2.1 500 = some 1 := by
  decide

/-- C5 (amended: the lookup-nil clause dropped — a nil token-detail lookup
still leads to a formatted, sent alert).  `boost_stats` is mutated only on a
confirmed successful send: when formatting yields a falsy message or the send
fails, the stats are unchanged and no alert is counted; when the send
succeeds (and the amount is a stats key, as it always is for filtered
boosts), exactly the entry at the boost's amount is incremented by 1; and the
value returned by `scan_and_process` equals the number of successful send
events of the cycle. -/
theorem C5_stats_only_on_confirmed_send :
    (∀ (o : Oracles) (now : Int) (stats : Stats) (b : RawBoost),
      (format_boost_message now b (o.details b.tokenAddress)).getD "" = "" →
        (process_boost o now stats b).1 = false ∧
        (process_boost o now stats b).2.1 = stats) ∧
    (∀ (o : Oracles) (now : Int) (stats : Stats) (b : RawBoost),
      o.sendOk ((format_boost_message now b (o.details b.tokenAddress)).getD "") = false →
        (process_boost o now stats b).1 = false ∧
        (process_boost o now stats b).2.1 = stats) ∧
    (∀ (o : Oracles) (now : Int) (stats : Stats) (b : RawBoost) (msg : String),
      format_boost_message now b (o.details b.tokenAddress) = some msg → msg ≠ "" →
      o.sendOk msg = true → b.amount.getD 0 ∈ statsKeys stats →
        (process_boost o now stats b).1 = true ∧
        lookupStats (process_boost o now stats b).2.1 (b.amount.getD 0)
          = (lookupStats stats (b.amount.getD 0)).map (fun n => n + 1) ∧
        ∀ a, a ≠ b.amount.getD 0 →
          lookupStats (process_boost o now stats b).2.1 a = lookupStats stats a) ∧
    (∀ (o : Oracles) (now : Int) resp seen (stats : Stats),
      (∀ a ∈ BOOST_AMOUNTS, a ∈ statsKeys stats) →
      (scan_and_process o now resp seen stats).1
        = (((scan_and_process o now resp seen stats).2.2.2).filter
            Event.isSendSuccess).length) := by
  refine ⟨?_, ?_, ?_, ?_⟩
  · intro o now stats b h
    rw [process_boost_msg_falsy o now stats b h]
    exact ⟨rfl, rfl⟩
  · intro o now stats b hs
    by_cases h : (format_boost_message now b (o.details b.tokenAddress)).getD "" = ""
    · rw [process_boost_msg_falsy o now stats b h]
      exact ⟨rfl, rfl⟩
    · rw [process_boost_send_fail o now stats b h hs]
      exact ⟨rfl, rfl⟩
  · intro o now stats b msg hmsg hne hsend hkey
    have hgd : (format_boost_message now b (o.details b.tokenAddress)).getD "" = msg := by
      rw [hmsg]
      rfl
    have h : ¬ (format_boost_message now b (o.details b.tokenAddress)).getD "" = "" := by
      rw [hgd]
      exact hne
    have hs : o.sendOk ((format_boost_message now b (o.details b.tokenAddress)).getD "")
        = true := by
      rw [hgd]
      exact hsend
    rw [process_boost_send_ok o now stats b h hs]
    have hisome := (incrStats_isSome_iff stats (b.amount.getD 0)).mpr hkey
    cases hi : incrStats stats (b.amount.getD 0) with
    | none => rw [hi] at hisome; simp at hisome
    | some s' =>
      obtain ⟨_, h2, h3⟩ := incrStats_spec stats (b.amount.getD 0) s' hi
      exact ⟨rfl, h2, h3⟩
  · intro o now resp seen stats hkeys
    rw [scan_and_process_eq]
    apply processLoop_count
    intro b hb
    apply hkeys
    have := (List.mem_filter.mp hb).2
    simpa [check_boost_criteria] using this

/-- Witness for `C5_stats_only_on_confirmed_send`: a concrete boost whose
lookup yields nil is sent and counted, and a concrete scan cycle's return
value matches its successful-send trace count. -/
theorem C5_stats_only_on_confirmed_send_witness :
    (process_boost ⟨fun _ => none, fun _ => true⟩ 0 initStats
      ⟨some "solana", some "W5", some 500, some 500⟩).1 = true ∧
    (scan_and_process ⟨fun _ => none, fun _ => true⟩ 0
      (some ⟨200, .ok (.jlist [⟨some "solana", some "W5", some 500, some 500⟩])⟩)
      [] initStats).1
      = (((scan_and_process ⟨fun _ => none, fun _ => true⟩ 0
          (some ⟨200, .ok (.jlist [⟨some "solana", some "W5", some 500, some 500⟩])⟩)
          [] initStats).2.2.2).filter Event.isSendSuccess).length :=
  ⟨(C5_stats_only_on_confirmed_send.2.2.1 ⟨fun _ => none, fun _ => true⟩ 0 initStats
      ⟨some "solana", some "W5", some 500, some 500⟩
      ((format_boost_message 0 ⟨some "solana", some "W5", some 500, some 500⟩ none).getD "")
      rfl (by decide) rfl (by decide)).1,
   C5_stats_only_on_confirmed_send.2.2.2 ⟨fun _ => none, fun _ => true⟩ 0
      (some ⟨200, .ok (.jlist [⟨some "solana", some "W5", some 500, some 500⟩])⟩)
      [] initStats (by decide)⟩

/-! ## Lemmas about the pair selection of `get_token_details` -/

theorem evalKeys_spec (ps : List Pair) :
    ∀ keyed, evalKeys ps = .ok keyed →
      keyed.map Prod.fst = ps ∧ ∀ pv ∈ keyed, liqKey pv.1 = .ok pv.2 := by
  induction ps with
  | nil =>
    intro keyed h
    cases h
    exact ⟨rfl, by simp⟩
  | cons p ps ih =>
    intro keyed h
    simp only [evalKeys] at h
    cases hl : liqKey p with
    | error e => rw [hl] at h; simp at h
    | ok v =>
      rw [hl] at h
      cases hrest : evalKeys ps with
      | error e => rw [hrest] at h; simp at h
      | ok rest =>
        rw [hrest] at h
        cases h
        obtain ⟨h1, h2⟩ := ih rest hrest
        constructor
        · simp [h1]
        · intro pv hpv
          rcases List.mem_cons.mp hpv with rfl | hm
          · exact hl
          · exact h2 pv hm

theorem insertionSort_head_max (keyed : List (Pair × ℚ)) (x : Pair × ℚ)
    (hx : (keyed.insertionSort (fun a b => b.2 ≤ a.2)).head? = some x) :
    x ∈ keyed ∧ ∀ y ∈ keyed, y.2 ≤ x.2 := by
  haveI htot : IsTotal (Pair × ℚ) (fun a b => b.2 ≤ a.2) := ⟨fun a b => le_total b.2 a.2⟩
  haveI htr : IsTrans (Pair × ℚ) (fun a b => b.2 ≤ a.2) :=
    ⟨fun a b c h1 h2 => le_trans h2 h1⟩
  have hperm := List.perm_insertionSort (fun (a b : Pair × ℚ) => b.2 ≤ a.2) keyed
  have hsorted := List.sorted_insertionSort (fun (a b : Pair × ℚ) => b.2 ≤ a.2) keyed
  cases hs : keyed.insertionSort (fun a b => b.2 ≤ a.2) with
  | nil => rw [hs] at hx; simp at hx
  | cons hd tl =>
    rw [hs] at hx
    have hxhd : hd = x := by simpa using hx
    subst hxhd
    rw [hs] at hperm hsorted
    constructor
    · exact hperm.subset (List.mem_cons_self _ _)
    · intro y hy
      have hy' : y ∈ hd :: tl := hperm.symm.subset hy
      rcases List.mem_cons.mp hy' with rfl | hmem
      · exact le_refl _
      · exact (List.pairwise_cons.mp hsorted).1 y hmem

theorem selectFrom_ok_some (pl : PairsPayload) (p : Pair)
    (h : selectFrom pl = .ok (some p)) : isBestOf pl p := by
  cases hps : pl.pairs with
  | none => simp [selectFrom, hps] at h
  | some ps =>
    simp only [selectFrom, hps] at h
    by_cases hlen : ps.length > 0
    · rw [if_pos hlen] at h
      by_cases hemp : (ps.filter pChainOk).isEmpty = true
      · rw [if_pos hemp] at h
        simp at h
      · rw [if_neg hemp] at h
        cases hek : evalKeys (ps.filter pChainOk) with
        | error e => rw [hek] at h; simp at h
        | ok keyed =>
          rw [hek] at h
          have h' : (((keyed.insertionSort (fun a b => b.2 ≤ a.2)).head?).map
              (fun pv => pv.1)) = some p := by
            simpa using h
          obtain ⟨x, hx, hxp⟩ := Option.map_eq_some'.mp h'
          obtain ⟨hxmem, hxmax⟩ := insertionSort_head_max keyed x hx
          obtain ⟨hmap, hkeys⟩ := evalKeys_spec _ keyed hek
          have hpfilter : p ∈ ps.filter pChainOk := by
            rw [← hmap, ← hxp]
            exact List.mem_map_of_mem _ hxmem
          have hpps := (List.mem_filter.mp hpfilter).1
          have hpok := (List.mem_filter.mp hpfilter).2
          have hliq : liqKey p = .ok x.2 := by
            rw [← hxp]
            exact hkeys x hxmem
          refine ⟨ps, hps, hpps, hpok, x.2, hliq, ?_⟩
          intro q hq hqok
          have hqfilter : q ∈ ps.filter pChainOk := List.mem_filter.mpr ⟨hq, hqok⟩
          rw [← hmap] at hqfilter
          obtain ⟨qv, hqv, hq1⟩ := List.mem_map.mp hqfilter
          refine ⟨qv.2, ?_, ?_⟩
          · rw [← hq1]
            exact hkeys qv hqv
          · exact hxmax qv hqv
    · rw [if_neg hlen] at h
      simp at h

theorem tokenFallback_bad (t : Option (HttpResponse PairsPayload))
    (ht : badPairsResp t) : tokenFallback t = none := by
  rcases ht with rfl | ⟨r2, rfl, hr2⟩
  · rfl
  · simp only [tokenFallback]
    rcases hr2 with hst | hbody
    · rw [if_neg hst]
    · by_cases h200 : r2.status = 200
      · rw [if_pos h200, hbody]
      · rw [if_neg h200]

theorem tokenFallback_some (t : Option (HttpResponse PairsPayload)) (p : Pair)
    (h : tokenFallback t = some p) :
    ∃ r2 pl, t = some r2 ∧ r2.status = 200 ∧ r2.body = .ok pl ∧
      selectFrom pl = .ok (some p) := by
  cases t with
  | none => simp [tokenFallback] at h
  | some r2 =>
    simp only [tokenFallback] at h
    by_cases h200 : r2.status = 200
    · rw [if_pos h200] at h
      cases hbody : r2.body with
      | error e => rw [hbody] at h; simp at h
      | ok pl =>
        rw [hbody] at h
        simp only [] at h
        cases hsel : selectFrom pl with
        | error e => rw [hsel] at h; simp at h
        | ok res =>
          rw [hsel] at h
          cases res with
          | none => simp at h
          | some p' =>
            have hp : p' = p := by simpa using h
            exact ⟨r2, pl, rfl, h200, hbody, by rw [hsel, hp]⟩
    · rw [if_neg h200] at h
      simp at h

theorem gtd_some_cases (s t : Option (HttpResponse PairsPayload)) (p : Pair)
    (h : get_token_details s t = some p) :
    ∃ pl, (okPairsResp s pl ∨ okPairsResp t pl) ∧ selectFrom pl = .ok (some p) := by
  cases s with
  | none => simp [get_token_details] at h
  | some r1 =>
    simp only [get_token_details] at h
    by_cases h200 : r1.status = 200
    · rw [if_pos h200] at h
      cases hbody : r1.body with
      | error e => rw [hbody] at h; simp at h
      | ok pl =>
        rw [hbody] at h
        simp only [] at h
        cases hsel : selectFrom pl with
        | error e => rw [hsel] at h; simp at h
        | ok res =>
          rw [hsel] at h
          cases res with
          | some p' =>
            have hp : p' = p := by simpa using h
            exact ⟨pl, Or.inl ⟨r1, rfl, h200, hbody⟩, by rw [hsel, hp]⟩
          | none =>
            obtain ⟨r2, pl2, ht2, h2, hb2, hsel2⟩ := tokenFallback_some t p h
            exact ⟨pl2, Or.inr ⟨r2, ht2, h2, hb2⟩, hsel2⟩
    · rw [if_neg h200] at h
      obtain ⟨r2, pl2, ht2, h2, hb2, hsel2⟩ := tokenFallback_some t p h
      exact ⟨pl2, Or.inr ⟨r2, ht2, h2, hb2⟩, hsel2⟩

theorem gtd_search_result (r1 : HttpResponse PairsPayload) (pl : PairsPayload)
    (t : Option (HttpResponse PairsPayload)) (res : Option Pair)
    (h200 : r1.status = 200) (hbody : r1.body = .ok pl)
    (hsel : selectFrom pl = .ok res) :
    get_token_details (some r1) t
      = match res with
        | some p => some p
        | none => tokenFallback t := by
  cases res <;>
    · simp only [get_token_details]
      rw [if_pos h200, hbody]
      simp only []
      rw [hsel]

theorem gtd_search_error (r1 : HttpResponse PairsPayload) (pl : PairsPayload)
    (t : Option (HttpResponse PairsPayload))
    (h200 : r1.status = 200) (hbody : r1.body = .ok pl)
    (hsel : selectFrom pl = .error ()) :
    get_token_details (some r1) t = none := by
  simp only [get_token_details]
  rw [if_pos h200, hbody]
  simp only []
  rw [hsel]

theorem gtd_search_non200 (r1 : HttpResponse PairsPayload)
    (t : Option (HttpResponse PairsPayload)) (h200 : ¬ r1.status = 200) :
    get_token_details (some r1) t = tokenFallback t := by
  simp only [get_token_details]
  rw [if_neg h200]

/-! ## Claim C6: token-details postcondition -/

/-- C6.  Every non-nil result of `get_token_details` is a target-chain pair of
one of the two queried responses with maximal USD liquidity among that
response's target-chain pairs; when the search endpoint yields a pair (or
aborts), the result does not depend on the fallback response at all; and when
neither endpoint yields a target-chain pair the result is nil. -/
theorem C6_token_details_postcondition :
    (∀ s t (p : Pair), get_token_details s t = some p →
      ∃ pl, (okPairsResp s pl ∨ okPairsResp t pl) ∧ isBestOf pl p) ∧
    (∀ (r1 : HttpResponse PairsPayload) (pl : PairsPayload), r1.status = 200 →
      r1.body = .ok pl → selectFrom pl ≠ .ok none →
      ∀ t t', get_token_details (some r1) t = get_token_details (some r1) t') ∧
    (∀ s t, (∀ p, ¬ yieldsPair s p) → (∀ p, ¬ yieldsPair t p) →
      get_token_details s t = none) := by
  refine ⟨?_, ?_, ?_⟩
  · intro s t p h
    obtain ⟨pl, hor, hsel⟩ := gtd_some_cases s t p h
    exact ⟨pl, hor, selectFrom_ok_some pl p hsel⟩
  · intro r1 pl h200 hbody hne t t'
    cases hsel : selectFrom pl with
    | error e =>
      cases e
      rw [gtd_search_error r1 pl t h200 hbody hsel,
        gtd_search_error r1 pl t' h200 hbody hsel]
    | ok res =>
      cases res with
      | none => exact absurd hsel hne
      | some p =>
        rw [gtd_search_result r1 pl t _ h200 hbody hsel,
          gtd_search_result r1 pl t' _ h200 hbody hsel]
  · intro s t hs ht
    cases hres : get_token_details s t with
    | none => rfl
    | some p =>
      obtain ⟨pl, hor, hsel⟩ := gtd_some_cases s t p hres
      rcases hor with ⟨r, hsr, h200, hbody⟩ | ⟨r, htr, h200, hbody⟩
      · exact absurd ⟨r, pl, hsr, h200, hbody, hsel⟩ (hs p)
      · exact absurd ⟨r, pl, htr, h200, hbody, hsel⟩ (ht p)

/-- Witness for `C6_token_details_postcondition`: a concrete search response
with one Solana pair yields that pair, which is best of its payload. -/
theorem C6_token_details_postcondition_witness :
    ∃ pl, (okPairsResp (some ⟨200, .ok
        ⟨some [⟨some "solana", none, none, none, some ⟨some (.num 50000)⟩,
          none, none, some "pumpswap"⟩]⟩⟩) pl ∨
      okPairsResp none pl) ∧
      isBestOf pl ⟨some "solana", none, none, none, some ⟨some (.num 50000)⟩,
        none, none, some "pumpswap"⟩ :=
  C6_token_details_postcondition.1
    (some ⟨200, .ok ⟨some [⟨some "solana", none, none, none,
      some ⟨some (.num 50000)⟩, none, none, some "pumpswap"⟩]⟩⟩) none
    ⟨some "solana", none, none, none, some ⟨some (.num 50000)⟩,
      none, none, some "pumpswap"⟩ rfl

/-! ## Claim C7: error degradation, never propagation -/

/-- C7 counterexample.  A status-300 response — non-2xx — with a parseable
list body is processed normally by `get_boosted_tokens` (requests'
`raise_for_status` raises only for 4xx/5xx), so "non-2xx ⟹ empty list" fails
as stated. -/
theorem C7_counterexample :
    (get_boosted_tokens
      (some ⟨300, .ok (.jlist [⟨some "solana", some "Ctr7", some 500, some 500⟩])⟩)
      []).1
      = [⟨some "solana", some "Ctr7", some 500, some 500⟩] ∧
    [(⟨some "solana", some "Ctr7", some 500, some 500⟩ : RawBoost)]
      ≠ ([] : List RawBoost) := by
  decide

/-- C7 (amended: for the boosts feed, a failing status is 4xx/5xx — the ones
`raise_for_status` raises on; for the token endpoints, any non-200 status).
Transport failures, failing statuses and unparseable bodies make
`get_boosted_tokens` return the empty list with the cache untouched; make
`get_token_details` (both endpoints failing) return nil; and an internal
`float(...)` failure — the fallible step of formatting — makes
`format_boost_message` return nil, while without token data it always
produces a message.  All functions are total: no exception propagates. -/
theorem C7_error_degradation :
    (∀ seen, get_boosted_tokens none seen = ([], seen)) ∧
    (∀ (r : HttpResponse BoostsPayload) seen, 400 ≤ r.status → r.status < 600 →
      get_boosted_tokens (some r) seen = ([], seen)) ∧
    (∀ (st : Nat) seen,
      get_boosted_tokens (some ⟨st, .error ()⟩) seen = ([], seen)) ∧
    (∀ s t, badPairsResp s → badPairsResp t → get_token_details s t = none) ∧
    (∀ (now : Int) (b : RawBoost) (td : Pair),
      format_boost_message now b (some td) = none ↔
        (pyFloat (td.priceUsd.getD (.num 0)) = .error () ∨
         pyFloat (td.marketCap.getD (.num 0)) = .error () ∨
         pyFloat ((td.liquidity.getD ⟨none⟩).usd.getD (.num 0)) = .error ())) ∧
    (∀ (now : Int) (b : RawBoost),
      (format_boost_message now b none).isSome = true) := by
  refine ⟨fun seen => rfl, ?_, ?_, ?_, ?_, fun now b => rfl⟩
  · intro r seen h4 h6
    have hrs : raiseForStatus r.status = true := by
      simp only [raiseForStatus, decide_eq_true_eq]
      exact ⟨h4, h6⟩
    simp [get_boosted_tokens, hrs]
  · intro st seen
    cases hrs : raiseForStatus st <;> simp [get_boosted_tokens, hrs]
  · intro s t hs ht
    rcases hs with rfl | ⟨r1, rfl, hr1⟩
    · rfl
    · rcases hr1 with h200 | hbody
      · rw [gtd_search_non200 r1 t h200, tokenFallback_bad t ht]
      · by_cases h200 : r1.status = 200
        · simp only [get_token_details]
          rw [if_pos h200, hbody]
        · rw [gtd_search_non200 r1 t h200, tokenFallback_bad t ht]
  · intro now b td
    cases hp : pyFloat (td.priceUsd.getD (.num 0)) with
    | error e =>
      cases e
      simp [format_boost_message, fmtBody, fmtVals, Except.toOption, hp]
    | ok qp =>
      cases hm : pyFloat (td.marketCap.getD (.num 0)) with
      | error e =>
        cases e
        simp [format_boost_message, fmtBody, fmtVals, Except.toOption, hp, hm]
      | ok qm =>
        cases hl : pyFloat ((td.liquidity.getD ⟨none⟩).usd.getD (.num 0)) with
        | error e =>
          cases e
          simp [format_boost_message, fmtBody, fmtVals, Except.toOption, hp, hm, hl]
        | ok ql =>
          simp [format_boost_message, fmtBody, fmtVals, Except.toOption, hp, hm, hl]

/-- Witness for `C7_error_degradation` at a concrete 404 response, a concrete
pair of failing token-endpoint responses, and a concrete unparseable
liquidity value. -/
theorem C7_error_degradation_witness :
    get_boosted_tokens (some ⟨404, .ok .other⟩) ["w7"] = ([], ["w7"]) ∧
    get_token_details (some ⟨500, .ok ⟨none⟩⟩) none = none ∧
    format_boost_message 0 ⟨some "solana", some "W7", some 500, some 500⟩
      (some ⟨some "solana", none, some .bad, none, none, none, none, none⟩) = none :=
  ⟨C7_error_degradation.2.1 ⟨404, .ok .other⟩ ["w7"] (by decide) (by decide),
   C7_error_degradation.2.2.2.1 (some ⟨500, .ok ⟨none⟩⟩) none
     (Or.inr ⟨⟨500, .ok ⟨none⟩⟩, rfl, Or.inl (by decide)⟩) (Or.inl rfl),
   (C7_error_degradation.2.2.2.2.1 0 ⟨some "solana", some "W7", some 500, some 500⟩
     ⟨some "solana", none, some .bad, none, none, none, none, none⟩).mpr
     (Or.inl rfl)⟩

/-! ## Claim C3: formatPrice tiers -/

theorem roundHalfEven_eq_low (q : ℚ) (n : ℤ) (h1 : (n : ℚ) ≤ q)
    (h2 : q < (n : ℚ) + 1/2) : roundHalfEven q = n := by
  have hf : ⌊q⌋ = n := by
    rw [Int.floor_eq_iff]
    refine ⟨h1, ?_⟩
    linarith
  show (if q - (⌊q⌋ : ℚ) < 1/2 then ⌊q⌋
    else if 1/2 < q - (⌊q⌋ : ℚ) then ⌊q⌋ + 1
    else if ⌊q⌋ % 2 = 0 then ⌊q⌋ else ⌊q⌋ + 1) = n
  rw [hf, if_pos (by linarith)]

theorem roundHalfEven_eq_high (q : ℚ) (n : ℤ) (h1 : (n : ℚ) + 1/2 < q)
    (h2 : q < (n : ℚ) + 1) : roundHalfEven q = n + 1 := by
  have hf : ⌊q⌋ = n := by
    rw [Int.floor_eq_iff]
    refine ⟨by linarith, ?_⟩
    linarith
  show (if q - (⌊q⌋ : ℚ) < 1/2 then ⌊q⌋
    else if 1/2 < q - (⌊q⌋ : ℚ) then ⌊q⌋ + 1
    else if ⌊q⌋ % 2 = 0 then ⌊q⌋ else ⌊q⌋ + 1) = n + 1
  rw [hf, if_neg (by linarith), if_pos (by linarith)]

theorem fmtFixed_eq (q : ℚ) (k : Nat) (n : ℤ)
    (h : roundHalfEven (q * (10 : ℚ) ^ k) = n) :
    fmtFixed q k = (if n < 0 then "-" else "")
      ++ (if k = 0 then decRepr n.natAbs
          else decRepr (n.natAbs / 10 ^ k) ++ "."
            ++ padZeros k (decRepr (n.natAbs % 10 ^ k))) := by
  unfold fmtFixed
  rw [h]
  by_cases hk : k = 0 <;> simp [hk, String.append_assoc]

theorem format_price_zero : format_price 0 = "$0.00" := by
  unfold format_price
  rw [if_pos rfl]

theorem format_price_low {q : ℚ} (h0 : ¬ q = 0) (h1 : q < 1/1000) :
    format_price q = pyRstrip (pyRstrip ("$" ++ fmtFixed q 8) '0') '.' := by
  unfold format_price
  rw [if_neg h0, if_pos h1]

theorem format_price_mid {q : ℚ} (h0 : ¬ q = 0) (h1 : ¬ q < 1/1000) (h2 : q < 1) :
    format_price q = pyRstrip (pyRstrip ("$" ++ fmtFixed q 6) '0') '.' := by
  unfold format_price
  rw [if_neg h0, if_neg h1, if_pos h2]

theorem format_price_high {q : ℚ} (h0 : ¬ q = 0) (h1 : ¬ q < 1/1000) (h2 : ¬ q < 1) :
    format_price q = pyRstrip (pyRstrip ("$" ++ fmtFixed q 4) '0') '.' := by
  unfold format_price
  rw [if_neg h0, if_neg h1, if_neg h2]

/-- C3 counterexample.  Python's `f"{x:.4f}"` rounds, so
`format_price(1234.56789)` is `"$1234.5679"`, not the claimed
`"$1234.5678"`. -/
theorem C3_counterexample :
    format_price (1234.56789 : ℚ) ≠ "$1234.5678" := by
  have heq : format_price (1234.56789 : ℚ) = "$1234.5679" := by
    rw [format_price_high (by norm_num) (by norm_num) (by norm_num),
      fmtFixed_eq (1234.56789 : ℚ) 4 (12345678 + 1)
        (roundHalfEven_eq_high _ 12345678 (by norm_num) (by norm_num))]
    decide
  rw [heq]
  decide

/-- C3 (amended: the 4-decimal and 6-decimal tier examples round — as
Python's fixed-point float formatting does — rather than truncate).
`format_price 0 = "$0.00"`; `format_price 1234.56789 = "$1234.5679"`
(4 decimals, trimmed); `format_price 0.123456789 = "$0.123457"` (6 decimals,
trimmed); and `0.0000001234` is nonzero and below `0.001`, so it takes the
8-decimal branch, producing `"$0.00000012"` (the subscript refinement being
dead code). -/
theorem C3_format_price_tiers :
    format_price 0 = "$0.00" ∧
    format_price (1234.56789 : ℚ) = "$1234.5679" ∧
    format_price (0.123456789 : ℚ) = "$0.123457" ∧
    ((0.0000001234 : ℚ) ≠ 0 ∧ (0.0000001234 : ℚ) < 1/1000 ∧
      format_price (0.0000001234 : ℚ) = "$0.00000012") := by
  refine ⟨format_price_zero, ?_, ?_, ⟨by norm_num, by norm_num, ?_⟩⟩
  · rw [format_price_high (by norm_num) (by norm_num) (by norm_num),
      fmtFixed_eq (1234.56789 : ℚ) 4 (12345678 + 1)
        (roundHalfEven_eq_high _ 12345678 (by norm_num) (by norm_num))]
    decide
  · rw [format_price_mid (by norm_num) (by norm_num) (by norm_num),
      fmtFixed_eq (0.123456789 : ℚ) 6 (123456 + 1)
        (roundHalfEven_eq_high _ 123456 (by norm_num) (by norm_num))]
    decide
  · rw [format_price_low (by norm_num) (by norm_num),
      fmtFixed_eq (0.0000001234 : ℚ) 8 12
        (roundHalfEven_eq_low _ 12 (by norm_num) (by norm_num))]
    decide

/-- Witness for `C2_dedup_identity_is_triple`: two concrete records whose
underscore-joined keys could be confused by a naive split nevertheless
satisfy the equivalence. -/
theorem C2_dedup_identity_is_triple_witness :
    (boostId ⟨some "solana", some "A_1", some 2, some 3⟩
        = boostId ⟨some "solana", some "A", some 1, some 23⟩)
      ↔ (tripleOf ⟨some "solana", some "A_1", some 2, some 3⟩
        = tripleOf ⟨some "solana", some "A", some 1, some 23⟩) :=
  C2_dedup_identity_is_triple.1 ⟨some "solana", some "A_1", some 2, some 3⟩
    ⟨some "solana", some "A", some 1, some 23⟩
